import Mathlib

/-!
Verification of the pivot-point trading pipeline of this repository.

The authoritative implementation lives in
`src/server/services/pivotCalculator.ts`; a condensed second copy lives in
`src/api/trpc/[trpc].ts`.  JavaScript numbers are modelled as exact
rationals (`ℚ`); nullable numbers are `Option ℚ`.  `Math.sqrt`, used only
by the AMA volatility term, has no exact rational counterpart and is
modelled as an explicit function parameter `sq : ℚ → ℚ` threaded through
the definitions that need it; every theorem below holds for an arbitrary
`sq`.  JS `Date` values are modelled by their epoch-millisecond value as
an `Int`.  Array reads `a[i]` are modelled by `List.getD i d`; the
definitions only ever read indices the source code reads.
-/

namespace PivotCalc

/-- A raw OHLCV bar (`OHLCData` in `src/api/lib/types.ts`); `datetime` is
the epoch-millisecond value of the JS `Date`.  The JS field `open` is a
Lean keyword and is rendered `openPrice`. -/
structure OHLCData where
  datetime : Int
  openPrice : ℚ
  high : ℚ
  low : ℚ
  close : ℚ
  volume : ℚ
  deriving DecidableEq

/-- The `'Buy' | 'Sell' | 'Hold'` string union. -/
inductive Signal where
  | Buy
  | Sell
  | Hold
  deriving DecidableEq

/-- `PivotData extends OHLCData` from `src/api/lib/types.ts`. -/
structure PivotData extends OHLCData where
  rsi : Option ℚ
  atr : Option ℚ
  ama : Option ℚ
  upper : Option ℚ
  lower : Option ℚ
  pivotHigh : Bool
  pivotLow : Bool
  signal : Signal
  upos : ℕ
  dnos : ℕ
  deriving DecidableEq

/-- Default used only as the `List.getD` fallback; never read in range. -/
def dummyBar : OHLCData := ⟨0, 0, 0, 0, 0, 0⟩

/-- Default used only as the `List.getD` fallback; never read in range. -/
def dummyPivot : PivotData :=
  ⟨dummyBar, none, none, none, none, none, false, false, Signal.Hold, 0, 0⟩

/-! ### calculateRSI (`pivotCalculator.ts` lines 8–52) -/

/-- `const change = closes[i] - closes[i - 1]` in the RSI loops. -/
def changeAt (closes : List ℚ) (i : ℕ) : ℚ :=
  closes.getD i 0 - closes.getD (i - 1) 0

/-- `change > 0 ? change : 0`. -/
def gainAt (closes : List ℚ) (i : ℕ) : ℚ :=
  if changeAt closes i > 0 then changeAt closes i else 0

/-- `change < 0 ? Math.abs(change) : 0`. -/
def lossAt (closes : List ℚ) (i : ℕ) : ℚ :=
  if changeAt closes i < 0 then |changeAt closes i| else 0

/-- The pair `(avgGain, avgLoss)` after `k` Wilder smoothing steps: at
`k = 0` the arithmetic means of the first `period` gains/losses (the
`gains`/`losses` arrays of lines 13–24), and one smoothing step of
lines 40–41 per further `k`, consuming the change at index `period + k`. -/
def rsiAvgs (closes : List ℚ) (period : ℕ) : ℕ → ℚ × ℚ
  | 0 =>
      (((List.range period).map (fun k => gainAt closes (k + 1))).sum / (period : ℚ),
       ((List.range period).map (fun k => lossAt closes (k + 1))).sum / (period : ℚ))
  | k + 1 =>
      let p := rsiAvgs closes period k
      ((p.1 * ((period : ℚ) - 1) + gainAt closes (period + (k + 1))) / (period : ℚ),
       (p.2 * ((period : ℚ) - 1) + lossAt closes (period + (k + 1))) / (period : ℚ))

/-- `avgLoss === 0 ? 100 : 100 - (100 / (1 + avgGain / avgLoss))` at
filled index `i ≥ period`. -/
def rsiValue (closes : List ℚ) (period i : ℕ) : ℚ :=
  let p := rsiAvgs closes period (i - period)
  if p.2 = 0 then 100 else 100 - 100 / (1 + p.1 / p.2)

/-- `calculateRSI` of `pivotCalculator.ts`: an all-`null` array when
`closes.length < period + 1`, else `null` below index `period` and the
Wilder RSI value from there on. -/
def calculateRSI (closes : List ℚ) (period : ℕ) : List (Option ℚ) :=
  if closes.length < period + 1 then List.replicate closes.length none
  else
    (List.range closes.length).map
      (fun i => if i < period then none else some (rsiValue closes period i))

/-! ### calculateATR (`pivotCalculator.ts` lines 61–92) -/

/-- The true-range series of lines 70–79. -/
def trueRange (highs lows closes : List ℚ) (i : ℕ) : ℚ :=
  if i = 0 then highs.getD 0 0 - lows.getD 0 0
  else
    max (highs.getD i 0 - lows.getD i 0)
      (max |highs.getD i 0 - closes.getD (i - 1) 0|
           |lows.getD i 0 - closes.getD (i - 1) 0|)

/-- The ATR value `k` steps past the seed index `period - 1`: the simple
mean of the first `period` true ranges at `k = 0`, then the Wilder
recurrence of line 87. -/
def atrValue (highs lows closes : List ℚ) (period : ℕ) : ℕ → ℚ
  | 0 => ((List.range period).map (trueRange highs lows closes)).sum / (period : ℚ)
  | k + 1 =>
      (atrValue highs lows closes period k * ((period : ℚ) - 1)
          + trueRange highs lows closes (period - 1 + (k + 1))) / (period : ℚ)

/-- `calculateATR` of `pivotCalculator.ts`: `null` below index
`period - 1`, the seeded/smoothed value from there on. -/
def calculateATR (highs lows closes : List ℚ) (period : ℕ) : List (Option ℚ) :=
  (List.range highs.length).map
    (fun i =>
      if i + 1 < period then none
      else some (atrValue highs lows closes period (i - (period - 1))))

/-! ### calculateAMA (`pivotCalculator.ts` lines 98–149) -/

/-- `pctChanges` of lines 109–112 (`0` at index 0). -/
def pctChange (closes : List ℚ) (i : ℕ) : ℚ :=
  if i = 0 then 0
  else (closes.getD i 0 - closes.getD (i - 1) 0) / closes.getD (i - 1) 0

/-- `pctChanges.slice(i - window + 1, i + 1)`, a `window`-long slice. -/
def volSlice (closes : List ℚ) (window i : ℕ) : List ℚ :=
  (List.range window).map (fun k => pctChange closes (i + 1 - window + k))

/-- Rolling volatility of lines 115–121: `0` below index `window - 1`,
else the square root (via the `sq` parameter) of the population variance
of the percent-change slice. -/
def volAt (sq : ℚ → ℚ) (closes : List ℚ) (window i : ℕ) : ℚ :=
  if i + 1 < window then 0
  else
    let slice := volSlice closes window i
    let mean := slice.sum / (slice.length : ℚ)
    sq ((slice.map (fun b => (b - mean) ^ 2)).sum / (slice.length : ℚ))

/-- The EMA recurrences of lines 126–137, seeded at `closes[0]`. -/
def emaFrom (closes : List ℚ) (m : ℚ) : ℕ → ℚ
  | 0 => closes.getD 0 0
  | i + 1 => closes.getD (i + 1) 0 * m + emaFrom closes m i * (1 - m)

/-- `rawAma = fastEma[i] + volatility[i] * (closes[i] - slowEma[i])`
(line 143), with the fast/slow multipliers `2 / (factor·window + 1)`. -/
def rawAma (sq : ℚ → ℚ) (closes : List ℚ) (window : ℕ)
    (fastFactor slowFactor : ℚ) (i : ℕ) : ℚ :=
  emaFrom closes (2 / (fastFactor * (window : ℚ) + 1)) i
    + volAt sq closes window i
        * (closes.getD i 0 - emaFrom closes (2 / (slowFactor * (window : ℚ) + 1)) i)

/-- The `prevAma` accumulator of lines 140–146 after processing index
`i`; the seed (line 141) is the raw AMA at index 0, which the `i = 0`
iteration immediately blends with itself. -/
def amaValue (sq : ℚ → ℚ) (closes : List ℚ) (window : ℕ)
    (fastFactor slowFactor : ℚ) : ℕ → ℚ
  | 0 =>
      rawAma sq closes window fastFactor slowFactor 0 * (2 / ((window : ℚ) + 1))
        + rawAma sq closes window fastFactor slowFactor 0 * (1 - 2 / ((window : ℚ) + 1))
  | i + 1 =>
      rawAma sq closes window fastFactor slowFactor (i + 1) * (2 / ((window : ℚ) + 1))
        + amaValue sq closes window fastFactor slowFactor i * (1 - 2 / ((window : ℚ) + 1))

/-- `calculateAMA` of `pivotCalculator.ts`: an all-`null` array when
`closes.length < window`, else a value at every index. -/
def calculateAMA (sq : ℚ → ℚ) (closes : List ℚ) (window : ℕ)
    (fastFactor slowFactor : ℚ) : List (Option ℚ) :=
  if closes.length < window then List.replicate closes.length none
  else
    (List.range closes.length).map
      (fun i => some (amaValue sq closes window fastFactor slowFactor i))

/-! ### calculatePivotPoints (`pivotCalculator.ts` lines 155–215) -/

/-- `data[i]` with the out-of-range fallback (never read in range). -/
def barAt (data : List OHLCData) (i : ℕ) : OHLCData := data.getD i dummyBar

/-- The net effect of the left/right scan of lines 163–186: the scan
leaves `isPivotHigh` true iff every neighbour high in
`[i-length, i-1] ∪ [i+1, i+length]` is strictly below `data[i].high`
(the scan breaks as soon as some `data[j].high >= currentHigh`). -/
def isPivotHighAt (data : List OHLCData) (length i : ℕ) : Bool :=
  ((List.range' (i - length) length).all
      (fun j => decide ((barAt data j).high < (barAt data i).high)))
    && ((List.range' (i + 1) length).all
      (fun j => decide ((barAt data j).high < (barAt data i).high)))

/-- Mirror of `isPivotHighAt` for lows (lines 189–212): the scan breaks
as soon as some `data[j].low <= currentLow`. -/
def isPivotLowAt (data : List OHLCData) (length i : ℕ) : Bool :=
  ((List.range' (i - length) length).all
      (fun j => decide ((barAt data i).low < (barAt data j).low)))
    && ((List.range' (i + 1) length).all
      (fun j => decide ((barAt data i).low < (barAt data j).low)))

/-- `calculatePivotPoints`: both loops only visit
`length ≤ i < data.length - length`; every other index keeps its
initial `false`. -/
def calculatePivotPoints (data : List OHLCData) (length : ℕ) :
    List Bool × List Bool :=
  ((List.range data.length).map
      (fun i =>
        if length ≤ i ∧ i + length < data.length then isPivotHighAt data length i
        else false),
   (List.range data.length).map
      (fun i =>
        if length ≤ i ∧ i + length < data.length then isPivotLowAt data length i
        else false))

/-! ### calculatePivotData (`pivotCalculator.ts` lines 221–361) -/

/-- `ohlcData.map((d) => d.close)` (line 238). -/
def closesOf (bars : List OHLCData) : List ℚ := bars.map (fun d => d.close)

/-- `ohlcData.map((d) => d.high)` (line 239). -/
def highsOf (bars : List OHLCData) : List ℚ := bars.map (fun d => d.high)

/-- `ohlcData.map((d) => d.low)` (line 240). -/
def lowsOf (bars : List OHLCData) : List ℚ := bars.map (fun d => d.low)

/-- `rsi[i]` as read by `calculatePivotData` (period 14, line 243). -/
def rsiAt (bars : List OHLCData) (i : ℕ) : Option ℚ :=
  (calculateRSI (closesOf bars) 14).getD i none

/-- `atr[i]` as read by `calculatePivotData` (period 14, line 244). -/
def atrAt (bars : List OHLCData) (i : ℕ) : Option ℚ :=
  (calculateATR (highsOf bars) (lowsOf bars) (closesOf bars) 14).getD i none

/-- `ama[i]` as read by `calculatePivotData` (line 245). -/
def amaAt (sq : ℚ → ℚ) (bars : List OHLCData) (i : ℕ) : Option ℚ :=
  (calculateAMA sq (closesOf bars) 14 2 30).getD i none

/-- `pivotHigh[i]` (length 14, line 248). -/
def pivotHighAt (bars : List OHLCData) (i : ℕ) : Bool :=
  (calculatePivotPoints bars 14).1.getD i false

/-- `pivotLow[i]` (length 14, line 248). -/
def pivotLowAt (bars : List OHLCData) (i : ℕ) : Bool :=
  (calculatePivotPoints bars 14).2.getD i false

/-- `slope[i] = atr[i] !== null ? atr[i] / 14 : 0` (line 261). -/
def slopeAt (bars : List OHLCData) (i : ℕ) : ℚ :=
  match atrAt bars i with
  | some a => a / 14
  | none => 0

/-- `slope_ph` carry-forward state (lines 264, 270–276). -/
def slopePh (bars : List OHLCData) : ℕ → ℚ
  | 0 => slopeAt bars 0
  | i + 1 => if pivotHighAt bars (i + 1) then slopeAt bars (i + 1) else slopePh bars i

/-- `slope_pl` carry-forward state (lines 265, 279–285). -/
def slopePl (bars : List OHLCData) : ℕ → ℚ
  | 0 => slopeAt bars 0
  | i + 1 => if pivotLowAt bars (i + 1) then slopeAt bars (i + 1) else slopePl bars i

/-- The `upper` trendline of lines 289–306; `??` is `Option.getD`. -/
def upperOpt (bars : List OHLCData) : ℕ → Option ℚ
  | 0 => some (barAt bars 0).high
  | i + 1 =>
      if pivotHighAt bars (i + 1) then some (barAt bars (i + 1)).high
      else some ((upperOpt bars i).getD (barAt bars (i + 1)).high - slopePh bars (i + 1))

/-- The `lower` trendline of lines 289–306. -/
def lowerOpt (bars : List OHLCData) : ℕ → Option ℚ
  | 0 => some (barAt bars 0).low
  | i + 1 =>
      if pivotLowAt bars (i + 1) then some (barAt bars (i + 1)).low
      else some ((lowerOpt bars i).getD (barAt bars (i + 1)).low + slopePl bars (i + 1))

/-- `upos` of lines 309–315: each entry keeps its initial `0` unless the
bar is not a pivot high, the previous upper bound is non-null and the
close breaks above it, in which case it is set to `1`. -/
def uposAt (bars : List OHLCData) : ℕ → ℕ
  | 0 => 0
  | i + 1 =>
      if pivotHighAt bars (i + 1) then 0
      else
        match upperOpt bars i with
        | some u => if (barAt bars (i + 1)).close > u then 1 else 0
        | none => 0

/-- `dnos` of lines 317–322, mirror of `uposAt`. -/
def dnosAt (bars : List OHLCData) : ℕ → ℕ
  | 0 => 0
  | i + 1 =>
      if pivotLowAt bars (i + 1) then 0
      else
        match lowerOpt bars i with
        | some v => if (barAt bars (i + 1)).close < v then 1 else 0
        | none => 0

/-- The raw signal loop of lines 326–336 (index 0 keeps `Hold`). -/
def rawSignalAt (bars : List OHLCData) : ℕ → Signal
  | 0 => Signal.Hold
  | i + 1 =>
      if uposAt bars (i + 1) > uposAt bars i then Signal.Buy
      else if dnosAt bars (i + 1) > dnosAt bars i then Signal.Sell
      else Signal.Hold

/-- The RSI filter of lines 339–345 applied on top of the raw signal:
`Buy` with defined RSI above 70 and `Sell` with defined RSI below 30
become `Hold`. -/
def signalAt (bars : List OHLCData) : ℕ → Signal
  | 0 => Signal.Hold
  | i + 1 =>
      match rawSignalAt bars (i + 1), rsiAt bars (i + 1) with
      | Signal.Buy, some r => if r > 70 then Signal.Hold else Signal.Buy
      | Signal.Sell, some r => if r < 30 then Signal.Hold else Signal.Sell
      | s, _ => s

/-- One element of the result array of lines 348–360. -/
def enrich (sq : ℚ → ℚ) (bars : List OHLCData) (i : ℕ) : PivotData :=
  { toOHLCData := barAt bars i
    rsi := rsiAt bars i
    atr := atrAt bars i
    ama := amaAt sq bars i
    upper := upperOpt bars i
    lower := lowerOpt bars i
    pivotHigh := pivotHighAt bars i
    pivotLow := pivotLowAt bars i
    signal := signalAt bars i
    upos := uposAt bars i
    dnos := dnosAt bars i }

/-- The short-circuit element of lines 223–235. -/
def blankEnrich (d : OHLCData) : PivotData :=
  { toOHLCData := d
    rsi := none
    atr := none
    ama := none
    upper := none
    lower := none
    pivotHigh := false
    pivotLow := false
    signal := Signal.Hold
    upos := 0
    dnos := 0 }

/-- `calculatePivotData` of `pivotCalculator.ts` (lines 221–361). -/
def calculatePivotData (sq : ℚ → ℚ) (ohlcData : List OHLCData) : List PivotData :=
  if ohlcData.length < 30 then ohlcData.map blankEnrich
  else (List.range ohlcData.length).map (enrich sq ohlcData)

/-! ### getLatestSignal (`pivotCalculator.ts` lines 366–396) -/

/-- The `getLatestSignal` result record. -/
structure SignalSummary where
  signal : Signal
  lastSignal : Signal
  lastSignalTime : Option Int
  lastSignalPrice : Option ℚ
  deriving DecidableEq

/-- `getLatestSignal`: sort a copy descending by timestamp (the JS
comparator `(a, b) => timeB - timeA`; `Array.prototype.sort` is stable,
modelled by the stable `List.mergeSort`), take the head's signal, and
scan for the first non-`Hold` signal. -/
def getLatestSignal (pivotData : List PivotData) : SignalSummary :=
  if pivotData.isEmpty then ⟨Signal.Hold, Signal.Hold, none, none⟩
  else
    let sortedData := pivotData.mergeSort (fun a b => decide (b.datetime ≤ a.datetime))
    let currentSignal := (sortedData.headD dummyPivot).signal
    match sortedData.find? (fun d => decide (d.signal ≠ Signal.Hold)) with
    | some d => ⟨currentSignal, d.signal, some d.datetime, some d.close⟩
    | none => ⟨currentSignal, Signal.Hold, none, none⟩

/-! ### The condensed copy in `src/api/trpc/[trpc].ts` (lines 88–208) -/

/-- The scalar `avgGain`/`avgLoss` accumulators of `[trpc].ts`
lines 91–95 after the seed loop has consumed the changes at
indices `1..k` (`else` adds `Math.abs(change)`, also when the change is
zero). -/
def rsiSeedAcc (closes : List ℚ) : ℕ → ℚ × ℚ
  | 0 => (0, 0)
  | k + 1 =>
      let p := rsiSeedAcc closes k
      if changeAt closes (k + 1) > 0 then (p.1 + changeAt closes (k + 1), p.2)
      else (p.1, p.2 + |changeAt closes (k + 1)|)

/-- The smoothed averages of `[trpc].ts` lines 96–101. -/
def rsiAvgs2 (closes : List ℚ) (period : ℕ) : ℕ → ℚ × ℚ
  | 0 =>
      ((rsiSeedAcc closes period).1 / (period : ℚ),
       (rsiSeedAcc closes period).2 / (period : ℚ))
  | k + 1 =>
      let p := rsiAvgs2 closes period k
      ((p.1 * ((period : ℚ) - 1)
          + (if changeAt closes (period + (k + 1)) > 0
             then changeAt closes (period + (k + 1)) else 0)) / (period : ℚ),
       (p.2 * ((period : ℚ) - 1)
          + (if changeAt closes (period + (k + 1)) < 0
             then |changeAt closes (period + (k + 1))| else 0)) / (period : ℚ))

/-- `avgLoss === 0 ? 100 : 100 - 100 / (1 + avgGain / avgLoss)` of
`[trpc].ts` lines 97 and 102. -/
def rsiValue2 (closes : List ℚ) (period i : ℕ) : ℚ :=
  let p := rsiAvgs2 closes period (i - period)
  if p.2 = 0 then 100 else 100 - 100 / (1 + p.1 / p.2)

/-- `calculateRSI` of `[trpc].ts` (lines 88–105). -/
def calculateRSI2 (closes : List ℚ) (period : ℕ) : List (Option ℚ) :=
  if closes.length < period + 1 then List.replicate closes.length none
  else
    (List.range closes.length).map
      (fun i => if i < period then none else some (rsiValue2 closes period i))

/-- The ATR accumulator of `[trpc].ts` lines 114–118 (the true-range
expression of lines 110–113 is textually that of `pivotCalculator.ts`). -/
def atrValue2 (highs lows closes : List ℚ) (period : ℕ) : ℕ → ℚ
  | 0 => ((List.range period).map (trueRange highs lows closes)).sum / (period : ℚ)
  | k + 1 =>
      (atrValue2 highs lows closes period k * ((period : ℚ) - 1)
          + trueRange highs lows closes (period - 1 + (k + 1))) / (period : ℚ)

/-- `calculateATR` of `[trpc].ts` (lines 107–120). -/
def calculateATR2 (highs lows closes : List ℚ) (period : ℕ) : List (Option ℚ) :=
  (List.range highs.length).map
    (fun i =>
      if i + 1 < period then none
      else some (atrValue2 highs lows closes period (i - (period - 1))))

/-- `[0, ...closes.slice(1).map((c, i) => (c - closes[i]) / closes[i])]`
(`[trpc].ts` line 125). -/
def pctList2 (closes : List ℚ) : List ℚ :=
  0 :: (closes.drop 1).mapIdx (fun i c => (c - closes.getD i 0) / closes.getD i 0)

/-- Rolling volatility of `[trpc].ts` lines 126–131, reading the
materialized `pct` array. -/
def volAt2 (sq : ℚ → ℚ) (closes : List ℚ) (window i : ℕ) : ℚ :=
  if i + 1 < window then 0
  else
    let slice := (List.range window).map
      (fun k => (pctList2 closes).getD (i + 1 - window + k) 0)
    let mean := slice.sum / (slice.length : ℚ)
    sq ((slice.map (fun b => (b - mean) ^ 2)).sum / (slice.length : ℚ))

/-- The fused `fastE`/`slowE` push loop of `[trpc].ts` lines 133–137. -/
def emas2 (closes : List ℚ) (fastM slowM : ℚ) : ℕ → ℚ × ℚ
  | 0 => (closes.getD 0 0, closes.getD 0 0)
  | i + 1 =>
      let p := emas2 closes fastM slowM i
      (closes.getD (i + 1) 0 * fastM + p.1 * (1 - fastM),
       closes.getD (i + 1) 0 * slowM + p.2 * (1 - slowM))

/-- `raw = fastE[i] + vol[i] * (closes[i] - slowE[i])` with the
multipliers `2 / (fast·window + 1)`, `2 / (slow·window + 1)`
(`[trpc].ts` lines 132 and 140). -/
def rawAma2 (sq : ℚ → ℚ) (closes : List ℚ) (window : ℕ)
    (fast slow : ℚ) (i : ℕ) : ℚ :=
  (emas2 closes (2 / (fast * (window : ℚ) + 1)) (2 / (slow * (window : ℚ) + 1)) i).1
    + volAt2 sq closes window i
        * (closes.getD i 0
            - (emas2 closes (2 / (fast * (window : ℚ) + 1))
                (2 / (slow * (window : ℚ) + 1)) i).2)

/-- The `prev` accumulator of `[trpc].ts` lines 138–143. -/
def amaValue2 (sq : ℚ → ℚ) (closes : List ℚ) (window : ℕ)
    (fast slow : ℚ) : ℕ → ℚ
  | 0 =>
      rawAma2 sq closes window fast slow 0 * (2 / ((window : ℚ) + 1))
        + rawAma2 sq closes window fast slow 0 * (1 - 2 / ((window : ℚ) + 1))
  | i + 1 =>
      rawAma2 sq closes window fast slow (i + 1) * (2 / ((window : ℚ) + 1))
        + amaValue2 sq closes window fast slow i * (1 - 2 / ((window : ℚ) + 1))

/-- `calculateAMA` of `[trpc].ts` (lines 122–145). -/
def calculateAMA2 (sq : ℚ → ℚ) (closes : List ℚ) (window : ℕ)
    (fast slow : ℚ) : List (Option ℚ) :=
  if closes.length < window then List.replicate closes.length none
  else
    (List.range closes.length).map
      (fun i => some (amaValue2 sq closes window fast slow i))

/-- The fused pivot scan of `[trpc].ts` lines 150–162: one pass over
`[i-length, i-1]` then `[i+1, i+length]`, clearing `isHigh`/`isLow`
without early exit. -/
def isPivotPair2 (data : List OHLCData) (length i : ℕ) : Bool × Bool :=
  ((List.range' (i - length) length ++ List.range' (i + 1) length).all
      (fun j => decide ((barAt data j).high < (barAt data i).high)),
   (List.range' (i - length) length ++ List.range' (i + 1) length).all
      (fun j => decide ((barAt data i).low < (barAt data j).low)))

/-- `calculatePivotPoints` of `[trpc].ts` (lines 147–164). -/
def calculatePivotPoints2 (data : List OHLCData) (length : ℕ) :
    List Bool × List Bool :=
  ((List.range data.length).map
      (fun i =>
        if length ≤ i ∧ i + length < data.length then (isPivotPair2 data length i).1
        else false),
   (List.range data.length).map
      (fun i =>
        if length ≤ i ∧ i + length < data.length then (isPivotPair2 data length i).2
        else false))

/-- `rsi[i]` as read by the `[trpc].ts` pipeline (line 170). -/
def rsi2At (bars : List OHLCData) (i : ℕ) : Option ℚ :=
  (calculateRSI2 (closesOf bars) 14).getD i none

/-- `atr[i]` as read by the `[trpc].ts` pipeline (line 170). -/
def atr2At (bars : List OHLCData) (i : ℕ) : Option ℚ :=
  (calculateATR2 (highsOf bars) (lowsOf bars) (closesOf bars) 14).getD i none

/-- `ama[i]` as read by the `[trpc].ts` pipeline (line 170). -/
def ama2At (sq : ℚ → ℚ) (bars : List OHLCData) (i : ℕ) : Option ℚ :=
  (calculateAMA2 sq (closesOf bars) 14 2 30).getD i none

/-- `pivotHigh[i]` of the `[trpc].ts` pipeline (line 171). -/
def pivotHigh2At (bars : List OHLCData) (i : ℕ) : Bool :=
  (calculatePivotPoints2 bars 14).1.getD i false

/-- `pivotLow[i]` of the `[trpc].ts` pipeline (line 171). -/
def pivotLow2At (bars : List OHLCData) (i : ℕ) : Bool :=
  (calculatePivotPoints2 bars 14).2.getD i false

/-- `slope[i] = (atr[i] ?? 0) / 14` (`[trpc].ts` line 173). -/
def slope2At (bars : List OHLCData) (i : ℕ) : ℚ :=
  (atr2At bars i).getD 0 / 14

/-- The per-iteration state pushed by the fused trendline loop of
`[trpc].ts` lines 174–185. -/
structure TrendState where
  slopePh : ℚ
  slopePl : ℚ
  upper : Option ℚ
  lower : Option ℚ
  upos : ℕ
  dnos : ℕ
  deriving DecidableEq

/-- The fused single trendline loop of `[trpc].ts` lines 174–185: each
iteration pushes the carried slopes, both bounds, and both breakout
flags, reading the previous iteration's bounds for the flags. -/
def trend2 (bars : List OHLCData) : ℕ → TrendState
  | 0 =>
      ⟨slope2At bars 0, slope2At bars 0, some (barAt bars 0).high,
        some (barAt bars 0).low, 0, 0⟩
  | i + 1 =>
      let p := trend2 bars i
      let sPh := if pivotHigh2At bars (i + 1) then slope2At bars (i + 1) else p.slopePh
      let sPl := if pivotLow2At bars (i + 1) then slope2At bars (i + 1) else p.slopePl
      let up : Option ℚ :=
        if pivotHigh2At bars (i + 1) then some (barAt bars (i + 1)).high
        else some (p.upper.getD (barAt bars (i + 1)).high - sPh)
      let lo : Option ℚ :=
        if pivotLow2At bars (i + 1) then some (barAt bars (i + 1)).low
        else some (p.lower.getD (barAt bars (i + 1)).low + sPl)
      let u : ℕ :=
        if !pivotHigh2At bars (i + 1)
            && (match p.upper with
                | some x => decide ((barAt bars (i + 1)).close > x)
                | none => false) then 1 else 0
      let w : ℕ :=
        if !pivotLow2At bars (i + 1)
            && (match p.lower with
                | some x => decide ((barAt bars (i + 1)).close < x)
                | none => false) then 1 else 0
      ⟨sPh, sPl, up, lo, u, w⟩

/-- `rsi[i] !== null && rsi[i]! > 70` (`[trpc].ts` line 190). -/
def rsiGt70 (o : Option ℚ) : Bool :=
  match o with
  | some r => decide (r > 70)
  | none => false

/-- `rsi[i] !== null && rsi[i]! < 30` (`[trpc].ts` line 191). -/
def rsiLt30 (o : Option ℚ) : Bool :=
  match o with
  | some r => decide (r < 30)
  | none => false

/-- The inline raw-signal-plus-veto loop of `[trpc].ts` lines 187–193:
the raw ternary chain followed by the two sequential veto `if`s. -/
def signal2At (bars : List OHLCData) : ℕ → Signal
  | 0 => Signal.Hold
  | i + 1 =>
      let sig0 :=
        if (trend2 bars (i + 1)).upos > (trend2 bars i).upos then Signal.Buy
        else if (trend2 bars (i + 1)).dnos > (trend2 bars i).dnos then Signal.Sell
        else Signal.Hold
      let sig1 :=
        if sig0 = Signal.Buy ∧ rsiGt70 (rsi2At bars (i + 1)) then Signal.Hold else sig0
      if sig1 = Signal.Sell ∧ rsiLt30 (rsi2At bars (i + 1)) then Signal.Hold else sig1

/-- One element of the `[trpc].ts` result map (line 195). -/
def enrich2 (sq : ℚ → ℚ) (bars : List OHLCData) (i : ℕ) : PivotData :=
  { toOHLCData := barAt bars i
    rsi := rsi2At bars i
    atr := atr2At bars i
    ama := ama2At sq bars i
    upper := (trend2 bars i).upper
    lower := (trend2 bars i).lower
    pivotHigh := pivotHigh2At bars i
    pivotLow := pivotLow2At bars i
    signal := signal2At bars i
    upos := (trend2 bars i).upos
    dnos := (trend2 bars i).dnos }

/-- `calculatePivotData` of `[trpc].ts` (lines 166–196); its `< 30`
short-circuit record (line 167) is textually the `pivotCalculator.ts`
one. -/
def calculatePivotData2 (sq : ℚ → ℚ) (ohlc : List OHLCData) : List PivotData :=
  if ohlc.length < 30 then ohlc.map blankEnrich
  else (List.range ohlc.length).map (enrich2 sq ohlc)

/-- `getLatestSignal` of `[trpc].ts` (lines 198–208). -/
def getLatestSignal2 (pivotData : List PivotData) : SignalSummary :=
  if pivotData.isEmpty then ⟨Signal.Hold, Signal.Hold, none, none⟩
  else
    let sorted := pivotData.mergeSort (fun a b => decide (b.datetime ≤ a.datetime))
    match sorted.find? (fun d => decide (d.signal ≠ Signal.Hold)) with
    | some d => ⟨(sorted.headD dummyPivot).signal, d.signal, some d.datetime, some d.close⟩
    | none => ⟨(sorted.headD dummyPivot).signal, Signal.Hold, none, none⟩

/-! ### The bundled copy in `src/unnamed/part_003` (lines 177–336) -/

/-- The pair `(avgGain, avgLoss)` of the bundled `calculateRSI`
(`part_003` lines 181–196): array-seeded means as in
`pivotCalculator.ts`, with the smoothing gains/losses inlined as
ternaries in the update (lines 194–195). -/
def rsiAvgs3 (closes : List ℚ) (period : ℕ) : ℕ → ℚ × ℚ
  | 0 =>
      (((List.range period).map (fun k => gainAt closes (k + 1))).sum / (period : ℚ),
       ((List.range period).map (fun k => lossAt closes (k + 1))).sum / (period : ℚ))
  | k + 1 =>
      let p := rsiAvgs3 closes period k
      ((p.1 * ((period : ℚ) - 1)
          + (if changeAt closes (period + (k + 1)) > 0
             then changeAt closes (period + (k + 1)) else 0)) / (period : ℚ),
       (p.2 * ((period : ℚ) - 1)
          + (if changeAt closes (period + (k + 1)) < 0
             then |changeAt closes (period + (k + 1))| else 0)) / (period : ℚ))

/-- `avgLoss === 0 ? 100 : 100 - (100 / (1 + avgGain / avgLoss))`
(`part_003` lines 190 and 196). -/
def rsiValue3 (closes : List ℚ) (period i : ℕ) : ℚ :=
  let p := rsiAvgs3 closes period (i - period)
  if p.2 = 0 then 100 else 100 - 100 / (1 + p.1 / p.2)

/-- `calculateRSI` of `part_003` (lines 177–199). -/
def calculateRSI3 (closes : List ℚ) (period : ℕ) : List (Option ℚ) :=
  if closes.length < period + 1 then List.replicate closes.length none
  else
    (List.range closes.length).map
      (fun i => if i < period then none else some (rsiValue3 closes period i))

/-- The true-range series of `part_003` lines 205–211 (the `const tr`
ternary is the `pivotCalculator.ts` expression). -/
def trueRange3 (highs lows closes : List ℚ) (i : ℕ) : ℚ :=
  if i = 0 then highs.getD 0 0 - lows.getD 0 0
  else
    max (highs.getD i 0 - lows.getD i 0)
      (max |highs.getD i 0 - closes.getD (i - 1) 0|
           |lows.getD i 0 - closes.getD (i - 1) 0|)

/-- The ATR accumulator of `part_003` lines 213–216. -/
def atrValue3 (highs lows closes : List ℚ) (period : ℕ) : ℕ → ℚ
  | 0 => ((List.range period).map (trueRange3 highs lows closes)).sum / (period : ℚ)
  | k + 1 =>
      (atrValue3 highs lows closes period k * ((period : ℚ) - 1)
          + trueRange3 highs lows closes (period - 1 + (k + 1))) / (period : ℚ)

/-- `calculateATR` of `part_003` (lines 201–218). -/
def calculateATR3 (highs lows closes : List ℚ) (period : ℕ) : List (Option ℚ) :=
  (List.range highs.length).map
    (fun i =>
      if i + 1 < period then none
      else some (atrValue3 highs lows closes period (i - (period - 1))))

/-- `pctChanges` of `part_003` lines 224–225 (loop-pushed, `0` first). -/
def pctChange3 (closes : List ℚ) (i : ℕ) : ℚ :=
  if i = 0 then 0
  else (closes.getD i 0 - closes.getD (i - 1) 0) / closes.getD (i - 1) 0

/-- `pctChanges.slice(i - window + 1, i + 1)` (`part_003` line 229). -/
def volSlice3 (closes : List ℚ) (window i : ℕ) : List ℚ :=
  (List.range window).map (fun k => pctChange3 closes (i + 1 - window + k))

/-- Rolling volatility of `part_003` lines 227–232. -/
def volAt3 (sq : ℚ → ℚ) (closes : List ℚ) (window i : ℕ) : ℚ :=
  if i + 1 < window then 0
  else
    let slice := volSlice3 closes window i
    let mean := slice.sum / (slice.length : ℚ)
    sq ((slice.map (fun b => (b - mean) ^ 2)).sum / (slice.length : ℚ))

/-- The fused `fastEma`/`slowEma` push loop of `part_003`
lines 236–241. -/
def emas3 (closes : List ℚ) (fastM slowM : ℚ) : ℕ → ℚ × ℚ
  | 0 => (closes.getD 0 0, closes.getD 0 0)
  | i + 1 =>
      let p := emas3 closes fastM slowM i
      (closes.getD (i + 1) 0 * fastM + p.1 * (1 - fastM),
       closes.getD (i + 1) 0 * slowM + p.2 * (1 - slowM))

/-- The `prevAma` accumulator of `part_003` lines 243–248: the raw
expression `fastEma[i] + volatility[i] * (closes[i] - slowEma[i])` is
inlined in the update (line 246), multipliers `2 / (factor·window + 1)`
(lines 234–235). -/
def amaValue3 (sq : ℚ → ℚ) (closes : List ℚ) (window : ℕ)
    (fastFactor slowFactor : ℚ) : ℕ → ℚ
  | 0 =>
      ((emas3 closes (2 / (fastFactor * (window : ℚ) + 1))
            (2 / (slowFactor * (window : ℚ) + 1)) 0).1
          + volAt3 sq closes window 0
              * (closes.getD 0 0
                  - (emas3 closes (2 / (fastFactor * (window : ℚ) + 1))
                      (2 / (slowFactor * (window : ℚ) + 1)) 0).2)) * (2 / ((window : ℚ) + 1))
        + ((emas3 closes (2 / (fastFactor * (window : ℚ) + 1))
            (2 / (slowFactor * (window : ℚ) + 1)) 0).1
          + volAt3 sq closes window 0
              * (closes.getD 0 0
                  - (emas3 closes (2 / (fastFactor * (window : ℚ) + 1))
                      (2 / (slowFactor * (window : ℚ) + 1)) 0).2)) * (1 - 2 / ((window : ℚ) + 1))
  | i + 1 =>
      ((emas3 closes (2 / (fastFactor * (window : ℚ) + 1))
            (2 / (slowFactor * (window : ℚ) + 1)) (i + 1)).1
          + volAt3 sq closes window (i + 1)
              * (closes.getD (i + 1) 0
                  - (emas3 closes (2 / (fastFactor * (window : ℚ) + 1))
                      (2 / (slowFactor * (window : ℚ) + 1)) (i + 1)).2)) * (2 / ((window : ℚ) + 1))
        + amaValue3 sq closes window fastFactor slowFactor i * (1 - 2 / ((window : ℚ) + 1))

/-- `calculateAMA` of `part_003` (lines 220–250). -/
def calculateAMA3 (sq : ℚ → ℚ) (closes : List ℚ) (window : ℕ)
    (fastFactor slowFactor : ℚ) : List (Option ℚ) :=
  if closes.length < window then List.replicate closes.length none
  else
    (List.range closes.length).map
      (fun i => some (amaValue3 sq closes window fastFactor slowFactor i))

/-- Left scan of the bundled pivot loop (`part_003` lines 258–261): every
`j` is visited and each comparison clears its flag. -/
def leftScan3 (data : List OHLCData) (i : ℕ) : List ℕ → Bool × Bool → Bool × Bool
  | [], s => s
  | j :: js, (hB, lB) =>
      leftScan3 data i js
        (if (barAt data j).high ≥ (barAt data i).high then false else hB,
         if (barAt data j).low ≤ (barAt data i).low then false else lB)

/-- Right scan of the bundled pivot loop (`part_003` lines 262–265): the
loop condition `j <= i + length && (isHigh || isLow)` stops the scan as
soon as both flags are cleared. -/
def rightScan3 (data : List OHLCData) (i : ℕ) : List ℕ → Bool × Bool → Bool × Bool
  | [], s => s
  | j :: js, (hB, lB) =>
      if hB || lB then
        rightScan3 data i js
          (if (barAt data j).high ≥ (barAt data i).high then false else hB,
           if (barAt data j).low ≤ (barAt data i).low then false else lB)
      else (hB, lB)

/-- The `(isHigh, isLow)` pair after both scans of `part_003`
lines 256–267. -/
def isPivotPair3 (data : List OHLCData) (length i : ℕ) : Bool × Bool :=
  rightScan3 data i (List.range' (i + 1) length)
    (leftScan3 data i (List.range' (i - length) length) (true, true))

/-- `calculatePivotPoints` of `part_003` (lines 252–270). -/
def calculatePivotPoints3 (data : List OHLCData) (length : ℕ) :
    List Bool × List Bool :=
  ((List.range data.length).map
      (fun i =>
        if length ≤ i ∧ i + length < data.length then (isPivotPair3 data length i).1
        else false),
   (List.range data.length).map
      (fun i =>
        if length ≤ i ∧ i + length < data.length then (isPivotPair3 data length i).2
        else false))

/-- `rsi[i]` as read by the `part_003` pipeline (line 281). -/
def rsi3At (bars : List OHLCData) (i : ℕ) : Option ℚ :=
  (calculateRSI3 (closesOf bars) 14).getD i none

/-- `atr[i]` as read by the `part_003` pipeline (line 282). -/
def atr3At (bars : List OHLCData) (i : ℕ) : Option ℚ :=
  (calculateATR3 (highsOf bars) (lowsOf bars) (closesOf bars) 14).getD i none

/-- `ama[i]` as read by the `part_003` pipeline (line 283). -/
def ama3At (sq : ℚ → ℚ) (bars : List OHLCData) (i : ℕ) : Option ℚ :=
  (calculateAMA3 sq (closesOf bars) 14 2 30).getD i none

/-- `pivotHigh[i]` of the `part_003` pipeline (line 284). -/
def pivotHigh3At (bars : List OHLCData) (i : ℕ) : Bool :=
  (calculatePivotPoints3 bars 14).1.getD i false

/-- `pivotLow[i]` of the `part_003` pipeline (line 284). -/
def pivotLow3At (bars : List OHLCData) (i : ℕ) : Bool :=
  (calculatePivotPoints3 bars 14).2.getD i false

/-- `slope[i] = atr[i] !== null ? atr[i]! / 14 : 0` (`part_003`
line 295). -/
def slope3At (bars : List OHLCData) (i : ℕ) : ℚ :=
  match atr3At bars i with
  | some a => a / 14
  | none => 0

/-- `slopePh` carry-forward of `part_003` lines 296, 299–300. -/
def slopePh3 (bars : List OHLCData) : ℕ → ℚ
  | 0 => slope3At bars 0
  | i + 1 => if pivotHigh3At bars (i + 1) then slope3At bars (i + 1) else slopePh3 bars i

/-- `slopePl` carry-forward of `part_003` lines 296, 301–302. -/
def slopePl3 (bars : List OHLCData) : ℕ → ℚ
  | 0 => slope3At bars 0
  | i + 1 => if pivotLow3At bars (i + 1) then slope3At bars (i + 1) else slopePl3 bars i

/-- The `upper` trendline of `part_003` lines 305–311 (ternary form). -/
def upperOpt3 (bars : List OHLCData) : ℕ → Option ℚ
  | 0 => some (barAt bars 0).high
  | i + 1 =>
      if pivotHigh3At bars (i + 1) then some (barAt bars (i + 1)).high
      else some ((upperOpt3 bars i).getD (barAt bars (i + 1)).high - slopePh3 bars (i + 1))

/-- The `lower` trendline of `part_003` lines 305–311. -/
def lowerOpt3 (bars : List OHLCData) : ℕ → Option ℚ
  | 0 => some (barAt bars 0).low
  | i + 1 =>
      if pivotLow3At bars (i + 1) then some (barAt bars (i + 1)).low
      else some ((lowerOpt3 bars i).getD (barAt bars (i + 1)).low + slopePl3 bars (i + 1))

/-- `upos` of `part_003` line 314, a single conjoined condition. -/
def upos3At (bars : List OHLCData) : ℕ → ℕ
  | 0 => 0
  | i + 1 =>
      if !pivotHigh3At bars (i + 1)
          && (match upperOpt3 bars i with
              | some u => decide ((barAt bars (i + 1)).close > u)
              | none => false) then 1 else 0

/-- `dnos` of `part_003` line 315. -/
def dnos3At (bars : List OHLCData) : ℕ → ℕ
  | 0 => 0
  | i + 1 =>
      if !pivotLow3At bars (i + 1)
          && (match lowerOpt3 bars i with
              | some v => decide ((barAt bars (i + 1)).close < v)
              | none => false) then 1 else 0

/-- The raw signal loop of `part_003` lines 318–322 (no `else`: the
array keeps its `'Hold'` fill). -/
def rawSignal3At (bars : List OHLCData) : ℕ → Signal
  | 0 => Signal.Hold
  | i + 1 =>
      if upos3At bars (i + 1) > upos3At bars i then Signal.Buy
      else if dnos3At bars (i + 1) > dnos3At bars i then Signal.Sell
      else Signal.Hold

/-- The RSI filter of `part_003` lines 323–326. -/
def signal3At (bars : List OHLCData) : ℕ → Signal
  | 0 => Signal.Hold
  | i + 1 =>
      match rawSignal3At bars (i + 1), rsi3At bars (i + 1) with
      | Signal.Buy, some r => if r > 70 then Signal.Hold else Signal.Buy
      | Signal.Sell, some r => if r < 30 then Signal.Hold else Signal.Sell
      | s, _ => s

/-- One element of the `part_003` result map (line 328). -/
def enrich3 (sq : ℚ → ℚ) (bars : List OHLCData) (i : ℕ) : PivotData :=
  { toOHLCData := barAt bars i
    rsi := rsi3At bars i
    atr := atr3At bars i
    ama := ama3At sq bars i
    upper := upperOpt3 bars i
    lower := lowerOpt3 bars i
    pivotHigh := pivotHigh3At bars i
    pivotLow := pivotLow3At bars i
    signal := signal3At bars i
    upos := upos3At bars i
    dnos := dnos3At bars i }

/-- `calculatePivotData` of `part_003` (lines 272–329); its `< 30`
short-circuit record (line 274) is textually the `pivotCalculator.ts`
one. -/
def calculatePivotData3 (sq : ℚ → ℚ) (ohlcData : List OHLCData) : List PivotData :=
  if ohlcData.length < 30 then ohlcData.map blankEnrich
  else (List.range ohlcData.length).map (enrich3 sq ohlcData)

/-- `getLatestSignal` of `part_003` (lines 331–336): same stable
descending sort and first-non-Hold scan, with `sorted[0].signal`
inlined. -/
def getLatestSignal3 (pivotData : List PivotData) : SignalSummary :=
  if pivotData.isEmpty then ⟨Signal.Hold, Signal.Hold, none, none⟩
  else
    let sorted := pivotData.mergeSort (fun a b => decide (b.datetime ≤ a.datetime))
    match sorted.find? (fun d => decide (d.signal ≠ Signal.Hold)) with
    | some d => ⟨(sorted.headD dummyPivot).signal, d.signal, some d.datetime, some d.close⟩
    | none => ⟨(sorted.headD dummyPivot).signal, Signal.Hold, none, none⟩

/-! ### Concrete inputs used by witnesses and counterexamples -/

/-- Bar `i` of the 30-bar counterexample input: constant highs/lows (so
ties disqualify every pivot), constant closes except one breakout close
above the flat upper bound at index 20. -/
def cexBar (i : ℕ) : OHLCData :=
  ⟨(i : Int), 5, 10, 0, if i = 20 then 11 else 5, 0⟩

/-- The 30-bar counterexample input. -/
def cexBars : List OHLCData := (List.range 30).map cexBar

/-- A 3-bar input whose middle bar is a pivot for window 1. -/
def witBars3 : List OHLCData :=
  [⟨0, 0, 1, 0, 1, 0⟩, ⟨1, 0, 5, 2, 3, 0⟩, ⟨2, 0, 2, 1, 1, 0⟩]

/-! ### Basic helper lemmas -/

theorem getD_map_range {α : Type} (f : ℕ → α) {n i : ℕ} (hi : i < n) (d : α) :
    ((List.range n).map f).getD i d = f i := by
  rw [List.getD_eq_getElem?_getD, List.getElem?_map, List.getElem?_range hi]
  rfl

theorem getD_map_of_lt {α β : Type} (f : α → β) (l : List α) {i : ℕ}
    (hi : i < l.length) (d : β) (d' : α) :
    (l.map f).getD i d = f (l.getD i d') := by
  rw [List.getD_eq_getElem?_getD, List.getElem?_map, List.getElem?_eq_getElem hi,
    List.getD_eq_getElem?_getD, List.getElem?_eq_getElem hi]
  rfl

theorem length_calculatePivotData (sq : ℚ → ℚ) (bars : List OHLCData) :
    (calculatePivotData sq bars).length = bars.length := by
  unfold calculatePivotData
  split <;> simp

theorem mem_range'_iff {s n j : ℕ} : j ∈ List.range' s n ↔ s ≤ j ∧ j < s + n := by
  rw [List.mem_range']
  constructor
  · rintro ⟨i, hi, rfl⟩
    omega
  · intro hj
    exact ⟨j - s, by omega, by omega⟩

/-! ### Claim theorems: warm-up policy and pivot detection -/

/-- Claim C4: with fewer than 30 bars, `calculatePivotData` returns a
same-length sequence where every indicator is `null`, every pivot flag
is `false`, every signal is `Hold`, both counters are `0`, and each
bar's original timestamp and OHLCV fields are kept unchanged. -/
theorem short_input_all_blank (sq : ℚ → ℚ) (bars : List OHLCData)
    (h : bars.length < 30) :
    (calculatePivotData sq bars).length = bars.length ∧
    ∀ i, i < bars.length →
      (calculatePivotData sq bars).getD i dummyPivot =
        { toOHLCData := bars.getD i dummyBar
          rsi := none
          atr := none
          ama := none
          upper := none
          lower := none
          pivotHigh := false
          pivotLow := false
          signal := Signal.Hold
          upos := 0
          dnos := 0 } := by
  refine ⟨length_calculatePivotData sq bars, fun i hi => ?_⟩
  unfold calculatePivotData
  rw [if_pos h, getD_map_of_lt blankEnrich bars hi dummyPivot dummyBar]
  rfl

/-- Claim C4 witness at a concrete 2-bar input. -/
theorem short_input_all_blank_witness :
    [(⟨5, 1, 4, 2, 3, 7⟩ : OHLCData), ⟨6, 2, 5, 3, 4, 8⟩].length < 30 ∧
    ((calculatePivotData (fun q => q)
        [(⟨5, 1, 4, 2, 3, 7⟩ : OHLCData), ⟨6, 2, 5, 3, 4, 8⟩]).length =
      [(⟨5, 1, 4, 2, 3, 7⟩ : OHLCData), ⟨6, 2, 5, 3, 4, 8⟩].length ∧
      ∀ i, i < [(⟨5, 1, 4, 2, 3, 7⟩ : OHLCData), ⟨6, 2, 5, 3, 4, 8⟩].length →
        ((calculatePivotData (fun q => q)
            [(⟨5, 1, 4, 2, 3, 7⟩ : OHLCData), ⟨6, 2, 5, 3, 4, 8⟩]).getD i dummyPivot =
          { toOHLCData := [(⟨5, 1, 4, 2, 3, 7⟩ : OHLCData), ⟨6, 2, 5, 3, 4, 8⟩].getD i dummyBar
            rsi := none
            atr := none
            ama := none
            upper := none
            lower := none
            pivotHigh := false
            pivotLow := false
            signal := Signal.Hold
            upos := 0
            dnos := 0 })) :=
  ⟨by decide, short_input_all_blank (fun q => q) _ (by decide)⟩

/-- Claim C5: pivot flags are `false` outside `[length, n - length)`, and
inside that window `pivotHigh[i]` holds iff `high[i]` strictly exceeds
every neighbour high in `[i-length, i-1] ∪ [i+1, i+length]` (ties
disqualify), `pivotLow[i]` symmetrically with strictly smaller lows. -/
theorem pivot_points_characterization (data : List OHLCData) (length : ℕ)
    (h : 1 ≤ length) :
    ∀ i, i < data.length →
      ((i < length ∨ data.length - length ≤ i →
          (calculatePivotPoints data length).1.getD i false = false ∧
          (calculatePivotPoints data length).2.getD i false = false) ∧
        (length ≤ i → i < data.length - length →
          ((calculatePivotPoints data length).1.getD i false = true ↔
            ∀ j, (i - length ≤ j ∧ j < i) ∨ (i + 1 ≤ j ∧ j ≤ i + length) →
              (barAt data j).high < (barAt data i).high) ∧
          ((calculatePivotPoints data length).2.getD i false = true ↔
            ∀ j, (i - length ≤ j ∧ j < i) ∨ (i + 1 ≤ j ∧ j ≤ i + length) →
              (barAt data i).low < (barAt data j).low))) := by
  intro i hi
  unfold calculatePivotPoints
  rw [getD_map_range _ hi, getD_map_range _ hi]
  constructor
  · intro hout
    rw [if_neg (by omega), if_neg (by omega)]
    exact ⟨rfl, rfl⟩
  · intro h1 h2
    rw [if_pos (by omega), if_pos (by omega)]
    unfold isPivotHighAt isPivotLowAt
    rw [Bool.and_eq_true, Bool.and_eq_true]
    simp only [List.all_eq_true, mem_range'_iff, decide_eq_true_eq]
    constructor
    · constructor
      · rintro ⟨hleft, hright⟩ j (hj | hj)
        · exact hleft j (by omega)
        · exact hright j (by omega)
      · intro hall
        exact ⟨fun j hj => hall j (Or.inl (by omega)),
               fun j hj => hall j (Or.inr (by omega))⟩
    · constructor
      · rintro ⟨hleft, hright⟩ j (hj | hj)
        · exact hleft j (by omega)
        · exact hright j (by omega)
      · intro hall
        exact ⟨fun j hj => hall j (Or.inl (by omega)),
               fun j hj => hall j (Or.inr (by omega))⟩

/-! ### RSI bounds (Claim C6) -/

theorem gainAt_nonneg (closes : List ℚ) (i : ℕ) : 0 ≤ gainAt closes i := by
  unfold gainAt
  split
  · exact le_of_lt (by assumption)
  · exact le_refl 0

theorem lossAt_nonneg (closes : List ℚ) (i : ℕ) : 0 ≤ lossAt closes i := by
  unfold lossAt
  split
  · exact abs_nonneg _
  · exact le_refl 0

theorem rsiAvgs_nonneg (closes : List ℚ) (period : ℕ) (h : 1 ≤ period) :
    ∀ k, 0 ≤ (rsiAvgs closes period k).1 ∧ 0 ≤ (rsiAvgs closes period k).2 := by
  intro k
  induction k with
  | zero =>
      constructor
      · refine div_nonneg (List.sum_nonneg ?_) (by positivity)
        intro x hx
        obtain ⟨j, _, rfl⟩ := List.mem_map.mp hx
        exact gainAt_nonneg closes (j + 1)
      · refine div_nonneg (List.sum_nonneg ?_) (by positivity)
        intro x hx
        obtain ⟨j, _, rfl⟩ := List.mem_map.mp hx
        exact lossAt_nonneg closes (j + 1)
  | succ k ih =>
      have hp : (0 : ℚ) ≤ (period : ℚ) - 1 := by
        have : (1 : ℚ) ≤ (period : ℚ) := by exact_mod_cast h
        linarith
      constructor
      · exact div_nonneg (add_nonneg (mul_nonneg ih.1 hp) (gainAt_nonneg _ _)) (by positivity)
      · exact div_nonneg (add_nonneg (mul_nonneg ih.2 hp) (lossAt_nonneg _ _)) (by positivity)

theorem rsiValue_bounds (closes : List ℚ) (period i : ℕ) (h : 1 ≤ period) :
    0 ≤ rsiValue closes period i ∧ rsiValue closes period i ≤ 100 ∧
    ((rsiAvgs closes period (i - period)).2 = 0 → rsiValue closes period i = 100) ∧
    ((rsiAvgs closes period (i - period)).2 ≠ 0 →
      0 < 1 + (rsiAvgs closes period (i - period)).1 / (rsiAvgs closes period (i - period)).2) := by
  obtain ⟨hg, hl⟩ := rsiAvgs_nonneg closes period h (i - period)
  unfold rsiValue
  by_cases h0 : (rsiAvgs closes period (i - period)).2 = 0
  · rw [if_pos h0]
    refine ⟨by norm_num, by norm_num, fun _ => rfl, fun hc => absurd h0 hc⟩
  · rw [if_neg h0]
    have hlpos : 0 < (rsiAvgs closes period (i - period)).2 := lt_of_le_of_ne hl (Ne.symm h0)
    have hq : 0 ≤ (rsiAvgs closes period (i - period)).1 / (rsiAvgs closes period (i - period)).2 :=
      div_nonneg hg (le_of_lt hlpos)
    have hd1 : (1 : ℚ) ≤ 1 + (rsiAvgs closes period (i - period)).1 / (rsiAvgs closes period (i - period)).2 := by
      linarith
    have hfrac_pos : (0 : ℚ) < 100 / (1 + (rsiAvgs closes period (i - period)).1 / (rsiAvgs closes period (i - period)).2) :=
      div_pos (by norm_num) (by linarith)
    have hfrac_le : 100 / (1 + (rsiAvgs closes period (i - period)).1 / (rsiAvgs closes period (i - period)).2) ≤ 100 :=
      div_le_self (by norm_num) hd1
    exact ⟨by linarith, by linarith, fun hc => absurd hc h0, fun _ => by linarith⟩

/-- Claim C6: `calculateRSI` preserves length, is absent below index
`period`, every defined value lies in `[0, 100]` and equals exactly 100
when the smoothed average loss is zero, and the division
`100 / (1 + avgGain / avgLoss)` is only ever taken with a positive
denominator. -/
theorem rsi_in_bounds (closes : List ℚ) (period : ℕ) (h : 1 ≤ period) :
    (calculateRSI closes period).length = closes.length ∧
    (∀ i, i < period → (calculateRSI closes period).getD i none = none) ∧
    (∀ i r, (calculateRSI closes period).getD i none = some r →
      0 ≤ r ∧ r ≤ 100 ∧
      ((rsiAvgs closes period (i - period)).2 = 0 → r = 100) ∧
      ((rsiAvgs closes period (i - period)).2 ≠ 0 →
        0 < 1 + (rsiAvgs closes period (i - period)).1 / (rsiAvgs closes period (i - period)).2)) := by
  refine ⟨?_, ?_, ?_⟩
  · unfold calculateRSI
    split <;> simp
  · intro i hip
    unfold calculateRSI
    split
    · rw [List.getD_eq_getElem?_getD, List.getElem?_replicate]
      split <;> rfl
    · by_cases hi : i < closes.length
      · rw [getD_map_range _ hi, if_pos hip]
      · rw [List.getD_eq_getElem?_getD, List.getElem?_eq_none (by simpa using Nat.le_of_not_lt hi)]
        rfl
  · intro i r hr
    unfold calculateRSI at hr
    split at hr
    · rw [List.getD_eq_getElem?_getD, List.getElem?_replicate] at hr
      split at hr <;> simp at hr
    · by_cases hi : i < closes.length
      · rw [getD_map_range _ hi] at hr
        split at hr
        · exact absurd hr (by simp)
        · obtain rfl : rsiValue closes period i = r := Option.some_injective _ hr
          exact rsiValue_bounds closes period i h
      · rw [List.getD_eq_getElem?_getD,
          List.getElem?_eq_none (by simpa using Nat.le_of_not_lt hi)] at hr
        simp at hr

/-! ### ATR recurrence and non-negativity (Claim C7) -/

theorem trueRange_nonneg (highs lows closes : List ℚ) (i : ℕ)
    (hi : i < highs.length)
    (hlow : ∀ j, j < highs.length → lows.getD j 0 ≤ highs.getD j 0) :
    0 ≤ trueRange highs lows closes i := by
  unfold trueRange
  split
  · next h0 =>
      subst h0
      exact sub_nonneg.mpr (hlow 0 hi)
  · exact le_trans (sub_nonneg.mpr (hlow i hi)) (le_max_left _ _)

theorem atrValue_nonneg (highs lows closes : List ℚ) (period : ℕ)
    (h : 1 ≤ period) (hp : period ≤ highs.length)
    (hlow : ∀ j, j < highs.length → lows.getD j 0 ≤ highs.getD j 0) :
    ∀ k, period - 1 + k < highs.length →
      0 ≤ atrValue highs lows closes period k := by
  intro k
  induction k with
  | zero =>
      intro _
      refine div_nonneg (List.sum_nonneg ?_) (by positivity)
      intro x hx
      obtain ⟨j, hj, rfl⟩ := List.mem_map.mp hx
      exact trueRange_nonneg highs lows closes j
        (lt_of_lt_of_le (List.mem_range.mp hj) hp) hlow
  | succ k ih =>
      intro hk
      have hperiod : (0 : ℚ) ≤ (period : ℚ) - 1 := by
        have : (1 : ℚ) ≤ (period : ℚ) := by exact_mod_cast h
        linarith
      refine div_nonneg (add_nonneg (mul_nonneg (ih (by omega)) hperiod) ?_) (by positivity)
      exact trueRange_nonneg highs lows closes _ (by omega) hlow

/-- Claim C7: `calculateATR` preserves length, the true range is
`high[0] - low[0]` at index 0 and the three-way max after that, the
output is absent strictly below index `period - 1`, equals the
arithmetic mean of the first `period` true ranges at index `period - 1`,
follows the Wilder recurrence afterwards, and — whenever every low is at
most the corresponding high — every defined value is non-negative. -/
theorem atr_spec (highs lows closes : List ℚ) (period : ℕ)
    (h : 1 ≤ period) (hll : lows.length = highs.length)
    (hcl : closes.length = highs.length) :
    (calculateATR highs lows closes period).length = highs.length ∧
    trueRange highs lows closes 0 = highs.getD 0 0 - lows.getD 0 0 ∧
    (∀ i, 0 < i → trueRange highs lows closes i =
      max (highs.getD i 0 - lows.getD i 0)
        (max |highs.getD i 0 - closes.getD (i - 1) 0|
             |lows.getD i 0 - closes.getD (i - 1) 0|)) ∧
    (∀ i, i + 1 < period → (calculateATR highs lows closes period).getD i none = none) ∧
    (period - 1 < highs.length →
      (calculateATR highs lows closes period).getD (period - 1) none =
        some (((List.range period).map (trueRange highs lows closes)).sum / (period : ℚ))) ∧
    (∀ i, period ≤ i → i < highs.length →
      ∃ a, (calculateATR highs lows closes period).getD (i - 1) none = some a ∧
        (calculateATR highs lows closes period).getD i none =
          some ((a * ((period : ℚ) - 1) + trueRange highs lows closes i) / (period : ℚ))) ∧
    ((∀ j, j < highs.length → lows.getD j 0 ≤ highs.getD j 0) →
      ∀ i a, (calculateATR highs lows closes period).getD i none = some a → 0 ≤ a) := by
  refine ⟨?_, ?_, ?_, ?_, ?_, ?_, ?_⟩
  · unfold calculateATR
    simp
  · unfold trueRange
    rw [if_pos rfl]
  · intro i hi
    unfold trueRange
    rw [if_neg (by omega)]
  · intro i hip
    unfold calculateATR
    by_cases hi : i < highs.length
    · rw [getD_map_range _ hi, if_pos hip]
    · rw [List.getD_eq_getElem?_getD,
        List.getElem?_eq_none (by simpa using Nat.le_of_not_lt hi)]
      rfl
  · intro hlen
    unfold calculateATR
    rw [getD_map_range _ hlen, if_neg (by omega)]
    have hz : period - 1 - (period - 1) = 0 := by omega
    rw [hz]
    rfl
  · intro i hpi hi
    unfold calculateATR
    rw [getD_map_range _ (by omega : i - 1 < highs.length), if_neg (by omega),
      getD_map_range _ hi, if_neg (by omega)]
    refine ⟨atrValue highs lows closes period (i - 1 - (period - 1)), rfl, ?_⟩
    have hsucc : i - (period - 1) = (i - 1 - (period - 1)) + 1 := by omega
    rw [hsucc]
    have hidx : period - 1 + (i - 1 - (period - 1) + 1) = i := by omega
    simp only [atrValue, hidx]
  · intro hlow i a ha
    unfold calculateATR at ha
    by_cases hi : i < highs.length
    · rw [getD_map_range _ hi] at ha
      split at ha
      · simp at ha
      · next hcond =>
          obtain rfl : atrValue highs lows closes period (i - (period - 1)) = a :=
            Option.some_injective _ ha
          exact atrValue_nonneg highs lows closes period h (by omega) hlow
            (i - (period - 1)) (by omega)
    · rw [List.getD_eq_getElem?_getD,
        List.getElem?_eq_none (by simpa using Nat.le_of_not_lt hi)] at ha
      simp at ha

/-! ### AMA definedness and recurrence (Claim C8) -/

/-- Claim C8: `calculateAMA` is all-absent exactly when the input is
shorter than `window`; otherwise it is defined at every index of the
output (also before `window - 1`, where the rolling-volatility term is
`0`), and consecutive outputs satisfy the seeded blend recurrence
`ama[i+1] = raw[i+1]·amaMult + ama[i]·(1 - amaMult)` with
`raw = fastEma + vol·(close - slowEma)` and `ama[0]` the blend of the
index-0 raw value with the seed (itself the index-0 raw value). -/
theorem ama_definedness (sq : ℚ → ℚ) (closes : List ℚ) (window : ℕ)
    (fastFactor slowFactor : ℚ) (hw : 1 ≤ window) :
    (calculateAMA sq closes window fastFactor slowFactor).length = closes.length ∧
    ((∀ i, (calculateAMA sq closes window fastFactor slowFactor).getD i none = none) ↔
      closes.length < window) ∧
    (window ≤ closes.length →
      (∀ i, i < closes.length →
        ∃ v, (calculateAMA sq closes window fastFactor slowFactor).getD i none = some v) ∧
      (calculateAMA sq closes window fastFactor slowFactor).getD 0 none =
        some (rawAma sq closes window fastFactor slowFactor 0 * (2 / ((window : ℚ) + 1))
          + rawAma sq closes window fastFactor slowFactor 0 * (1 - 2 / ((window : ℚ) + 1))) ∧
      (∀ i, i + 1 < closes.length →
        ∃ v, (calculateAMA sq closes window fastFactor slowFactor).getD i none = some v ∧
          (calculateAMA sq closes window fastFactor slowFactor).getD (i + 1) none =
            some (rawAma sq closes window fastFactor slowFactor (i + 1) * (2 / ((window : ℚ) + 1))
              + v * (1 - 2 / ((window : ℚ) + 1)))) ∧
      (∀ i, i + 1 < window → volAt sq closes window i = 0)) := by
  refine ⟨?_, ?_, ?_⟩
  · unfold calculateAMA
    split <;> simp
  · constructor
    · intro hall
      by_contra hlt
      have hlen : window ≤ closes.length := Nat.le_of_not_lt hlt
      have h0 : 0 < closes.length := lt_of_lt_of_le hw hlen
      have := hall 0
      unfold calculateAMA at this
      rw [if_neg hlt, getD_map_range _ h0] at this
      simp at this
    · intro hlt i
      unfold calculateAMA
      rw [if_pos hlt, List.getD_eq_getElem?_getD, List.getElem?_replicate]
      split <;> rfl
  · intro hlen
    have hnl : ¬ closes.length < window := Nat.not_lt.mpr hlen
    refine ⟨?_, ?_, ?_, ?_⟩
    · intro i hi
      unfold calculateAMA
      rw [if_neg hnl, getD_map_range _ hi]
      exact ⟨_, rfl⟩
    · have h0 : 0 < closes.length := lt_of_lt_of_le hw hlen
      unfold calculateAMA
      rw [if_neg hnl, getD_map_range _ h0]
      rfl
    · intro i hi
      unfold calculateAMA
      rw [if_neg hnl, getD_map_range _ (by omega : i < closes.length),
        getD_map_range _ hi]
      exact ⟨amaValue sq closes window fastFactor slowFactor i, rfl, rfl⟩
    · intro i hi
      unfold volAt
      rw [if_pos hi]

/-- Claim C8 witness: a 2-close input with window 2 (defined everywhere)
and the same input with window 3 (all absent). -/
theorem ama_definedness_witness :
    (1 : ℕ) ≤ 2 ∧
    (((∀ i, (calculateAMA (fun q => q) [4, 6] 2 2 30).getD i none = none) ↔
       ([4, 6] : List ℚ).length < 2) ∧
      (∃ v, (calculateAMA (fun q => q) [4, 6] 2 2 30).getD 0 none = some v) ∧
      (∃ v, (calculateAMA (fun q => q) [4, 6] 2 2 30).getD 1 none = some v)) := by
  refine ⟨by decide, (ama_definedness (fun q => q) [4, 6] 2 2 30 (by decide)).2.1, ?_, ?_⟩
  · exact ((ama_definedness (fun q => q) [4, 6] 2 2 30 (by decide)).2.2 (by decide)).1 0 (by decide)
  · exact ((ama_definedness (fun q => q) [4, 6] 2 2 30 (by decide)).2.2 (by decide)).1 1 (by decide)

/-! ### Pipeline getter and trendline lemmas -/

theorem calculatePivotData_getD (sq : ℚ → ℚ) (bars : List OHLCData)
    (h : 30 ≤ bars.length) {i : ℕ} (hi : i < bars.length) :
    (calculatePivotData sq bars).getD i dummyPivot = enrich sq bars i := by
  unfold calculatePivotData
  rw [if_neg (by omega), getD_map_range _ hi]

theorem upperOpt_isSome (bars : List OHLCData) (i : ℕ) :
    ∃ u, upperOpt bars i = some u := by
  cases i with
  | zero => exact ⟨_, rfl⟩
  | succ j =>
      unfold upperOpt
      split
      · exact ⟨_, rfl⟩
      · exact ⟨_, rfl⟩

theorem lowerOpt_isSome (bars : List OHLCData) (i : ℕ) :
    ∃ v, lowerOpt bars i = some v := by
  cases i with
  | zero => exact ⟨_, rfl⟩
  | succ j =>
      unfold lowerOpt
      split
      · exact ⟨_, rfl⟩
      · exact ⟨_, rfl⟩

theorem slopePh_last_pivot (bars : List OHLCData) :
    ∀ i j, j ≤ i → pivotHighAt bars j = true →
      (∀ k, j < k → k ≤ i → pivotHighAt bars k = false) →
      slopePh bars i = slopeAt bars j := by
  intro i
  induction i with
  | zero =>
      intro j hj _ _
      interval_cases j
      rfl
  | succ i ih =>
      intro j hj hpiv hnone
      by_cases hje : j = i + 1
      · subst hje
        unfold slopePh
        rw [if_pos hpiv]
      · have hji : j ≤ i := by omega
        have hlast : pivotHighAt bars (i + 1) = false := hnone (i + 1) (by omega) (le_refl _)
        unfold slopePh
        rw [if_neg (by simp [hlast])]
        exact ih j hji hpiv (fun k hk1 hk2 => hnone k hk1 (by omega))

theorem slopePl_last_pivot (bars : List OHLCData) :
    ∀ i j, j ≤ i → pivotLowAt bars j = true →
      (∀ k, j < k → k ≤ i → pivotLowAt bars k = false) →
      slopePl bars i = slopeAt bars j := by
  intro i
  induction i with
  | zero =>
      intro j hj _ _
      interval_cases j
      rfl
  | succ i ih =>
      intro j hj hpiv hnone
      by_cases hje : j = i + 1
      · subst hje
        unfold slopePl
        rw [if_pos hpiv]
      · have hji : j ≤ i := by omega
        have hlast : pivotLowAt bars (i + 1) = false := hnone (i + 1) (by omega) (le_refl _)
        unfold slopePl
        rw [if_neg (by simp [hlast])]
        exact ih j hji hpiv (fun k hk1 hk2 => hnone k hk1 (by omega))

theorem slopePh_no_pivot (bars : List OHLCData) :
    ∀ i, (∀ k, 0 < k → k ≤ i → pivotHighAt bars k = false) →
      slopePh bars i = slopeAt bars 0 := by
  intro i
  induction i with
  | zero => intro _; rfl
  | succ i ih =>
      intro hnone
      have hlast : pivotHighAt bars (i + 1) = false := hnone (i + 1) (by omega) (le_refl _)
      unfold slopePh
      rw [if_neg (by simp [hlast])]
      exact ih (fun k hk1 hk2 => hnone k hk1 (by omega))

theorem slopePl_no_pivot (bars : List OHLCData) :
    ∀ i, (∀ k, 0 < k → k ≤ i → pivotLowAt bars k = false) →
      slopePl bars i = slopeAt bars 0 := by
  intro i
  induction i with
  | zero => intro _; rfl
  | succ i ih =>
      intro hnone
      have hlast : pivotLowAt bars (i + 1) = false := hnone (i + 1) (by omega) (le_refl _)
      unfold slopePl
      rw [if_neg (by simp [hlast])]
      exact ih (fun k hk1 hk2 => hnone k hk1 (by omega))

/-- Claim C2: the trendlines of `calculatePivotData` are seeded with
`upper[0] = high[0]`, `lower[0] = low[0]`; away from index 0 the upper
bound resets to the high at a pivot high and otherwise decays from its
own previous value by the carried slope, the lower bound resets to the
low at a pivot low and otherwise rises from its own previous value (not
from the upper series); the carried slopes equal `atr/14` (`0` where ATR
is absent) taken at the most recent pivot of the matching kind, seeded
with `slope[0]` when no such pivot exists. -/
theorem trendline_recurrence (sq : ℚ → ℚ) (bars : List OHLCData)
    (h : 30 ≤ bars.length) :
    ((calculatePivotData sq bars).getD 0 dummyPivot).upper = some (barAt bars 0).high ∧
    ((calculatePivotData sq bars).getD 0 dummyPivot).lower = some (barAt bars 0).low ∧
    (∀ i, 0 < i → i < bars.length →
      ∃ u v,
        ((calculatePivotData sq bars).getD (i - 1) dummyPivot).upper = some u ∧
        ((calculatePivotData sq bars).getD (i - 1) dummyPivot).lower = some v ∧
        ((calculatePivotData sq bars).getD i dummyPivot).upper =
          some (if pivotHighAt bars i then (barAt bars i).high else u - slopePh bars i) ∧
        ((calculatePivotData sq bars).getD i dummyPivot).lower =
          some (if pivotLowAt bars i then (barAt bars i).low else v + slopePl bars i)) ∧
    slopePh bars 0 = slopeAt bars 0 ∧
    slopePl bars 0 = slopeAt bars 0 ∧
    (∀ i, atrAt bars i = none → slopeAt bars i = 0) ∧
    (∀ i a, atrAt bars i = some a → slopeAt bars i = a / 14) ∧
    (∀ i j, j ≤ i → pivotHighAt bars j = true →
      (∀ k, j < k → k ≤ i → pivotHighAt bars k = false) →
      slopePh bars i = slopeAt bars j) ∧
    (∀ i j, j ≤ i → pivotLowAt bars j = true →
      (∀ k, j < k → k ≤ i → pivotLowAt bars k = false) →
      slopePl bars i = slopeAt bars j) ∧
    (∀ i, (∀ k, 0 < k → k ≤ i → pivotHighAt bars k = false) →
      slopePh bars i = slopeAt bars 0) ∧
    (∀ i, (∀ k, 0 < k → k ≤ i → pivotLowAt bars k = false) →
      slopePl bars i = slopeAt bars 0) := by
  have h0 : 0 < bars.length := by omega
  refine ⟨?_, ?_, ?_, rfl, rfl, ?_, ?_,
    slopePh_last_pivot bars, slopePl_last_pivot bars,
    slopePh_no_pivot bars, slopePl_no_pivot bars⟩
  · rw [calculatePivotData_getD sq bars h h0]
    rfl
  · rw [calculatePivotData_getD sq bars h h0]
    rfl
  · intro i hi0 hilen
    obtain ⟨j, rfl⟩ : ∃ j, i = j + 1 := ⟨i - 1, by omega⟩
    obtain ⟨u, hu⟩ := upperOpt_isSome bars j
    obtain ⟨v, hv⟩ := lowerOpt_isSome bars j
    rw [calculatePivotData_getD sq bars h (by omega : j + 1 - 1 < bars.length),
      calculatePivotData_getD sq bars h hilen]
    have hj : j + 1 - 1 = j := by omega
    rw [hj]
    refine ⟨u, v, hu, hv, ?_, ?_⟩
    · show upperOpt bars (j + 1) = _
      unfold upperOpt
      by_cases hp : pivotHighAt bars (j + 1)
      · rw [if_pos hp, if_pos hp]
      · rw [if_neg hp, if_neg hp, hu]
        rfl
    · show lowerOpt bars (j + 1) = _
      unfold lowerOpt
      by_cases hp : pivotLowAt bars (j + 1)
      · rw [if_pos hp, if_pos hp]
      · rw [if_neg hp, if_neg hp, hv]
        rfl
  · intro i hnone
    unfold slopeAt
    rw [hnone]
  · intro i a ha
    unfold slopeAt
    rw [ha]

/-! ### Breakout counters (Claim C1) -/

theorem cexBars_length : cexBars.length = 30 := by
  simp [cexBars]

theorem barAt_cex {i : ℕ} (h : i < 30) : barAt cexBars i = cexBar i := by
  unfold barAt cexBars
  exact getD_map_range cexBar (by simpa [cexBars] using h) dummyBar

theorem pivotPoints_fst_getD (data : List OHLCData) (length i : ℕ)
    (hi : i < data.length) :
    (calculatePivotPoints data length).1.getD i false =
      (if length ≤ i ∧ i + length < data.length then isPivotHighAt data length i
       else false) := by
  unfold calculatePivotPoints
  exact getD_map_range _ hi false

theorem pivotPoints_snd_getD (data : List OHLCData) (length i : ℕ)
    (hi : i < data.length) :
    (calculatePivotPoints data length).2.getD i false =
      (if length ≤ i ∧ i + length < data.length then isPivotLowAt data length i
       else false) := by
  unfold calculatePivotPoints
  exact getD_map_range _ hi false

theorem pivotHighAt_cex (i : ℕ) : pivotHighAt cexBars i = false := by
  unfold pivotHighAt
  by_cases hi : i < cexBars.length
  · rw [pivotPoints_fst_getD cexBars 14 i hi]
    by_cases hg : 14 ≤ i ∧ i + 14 < cexBars.length
    · rw [if_pos hg]
      cases hA : (List.range' (i - 14) 14).all
          (fun j => decide ((barAt cexBars j).high < (barAt cexBars i).high)) with
      | false =>
          unfold isPivotHighAt
          rw [hA]
          rfl
      | true =>
          exfalso
          have hi30 : i < 30 := by
            rw [cexBars_length] at hg
            omega
          have hmem : i - 1 ∈ List.range' (i - 14) 14 := by
            rw [mem_range'_iff]
            omega
          have hlt := List.all_eq_true.mp hA (i - 1) hmem
          rw [decide_eq_true_eq, barAt_cex (by omega), barAt_cex hi30] at hlt
          simp only [cexBar] at hlt
          exact lt_irrefl _ hlt
    · rw [if_neg hg]
  · rw [List.getD_eq_getElem?_getD,
      List.getElem?_eq_none (by simpa using Nat.le_of_not_lt hi)]
    rfl

theorem pivotLowAt_cex (i : ℕ) : pivotLowAt cexBars i = false := by
  unfold pivotLowAt
  by_cases hi : i < cexBars.length
  · rw [pivotPoints_snd_getD cexBars 14 i hi]
    by_cases hg : 14 ≤ i ∧ i + 14 < cexBars.length
    · rw [if_pos hg]
      cases hA : (List.range' (i - 14) 14).all
          (fun j => decide ((barAt cexBars i).low < (barAt cexBars j).low)) with
      | false =>
          unfold isPivotLowAt
          rw [hA]
          rfl
      | true =>
          exfalso
          have hi30 : i < 30 := by
            rw [cexBars_length] at hg
            omega
          have hmem : i - 1 ∈ List.range' (i - 14) 14 := by
            rw [mem_range'_iff]
            omega
          have hlt := List.all_eq_true.mp hA (i - 1) hmem
          rw [decide_eq_true_eq, barAt_cex hi30,
            barAt_cex (by omega : i - 1 < 30)] at hlt
          simp only [cexBar] at hlt
          exact lt_irrefl _ hlt
    · rw [if_neg hg]
  · rw [List.getD_eq_getElem?_getD,
      List.getElem?_eq_none (by simpa using Nat.le_of_not_lt hi)]
    rfl

theorem atrAt_eq_none_of_lt (bars : List OHLCData) (i : ℕ)
    (hi : i < bars.length) (hp : i + 1 < 14) : atrAt bars i = none := by
  unfold atrAt calculateATR
  rw [getD_map_range _ (by simpa [highsOf] using hi), if_pos hp]

theorem slopeAt_cex0 : slopeAt cexBars 0 = 0 := by
  unfold slopeAt
  rw [atrAt_eq_none_of_lt cexBars 0 (by rw [cexBars_length]; omega) (by omega)]

theorem slopePh_cex (i : ℕ) : slopePh cexBars i = 0 := by
  rw [slopePh_no_pivot cexBars i (fun k _ _ => pivotHighAt_cex k), slopeAt_cex0]

theorem upperOpt_cex : ∀ i, i < 30 → upperOpt cexBars i = some 10 := by
  intro i
  induction i with
  | zero =>
      intro _
      show some (barAt cexBars 0).high = some 10
      rw [barAt_cex (by omega)]
      rfl
  | succ j ih =>
      intro hj
      unfold upperOpt
      rw [if_neg (by simp [pivotHighAt_cex]), ih (by omega), slopePh_cex]
      norm_num

theorem uposAt_cex20 : uposAt cexBars 20 = 1 := by
  show uposAt cexBars (19 + 1) = 1
  simp only [uposAt]
  rw [if_neg (by simp [pivotHighAt_cex]), upperOpt_cex 19 (by omega)]
  rw [barAt_cex (by omega)]
  norm_num [cexBar]

theorem uposAt_cex21 : uposAt cexBars 21 = 0 := by
  show uposAt cexBars (20 + 1) = 0
  simp only [uposAt]
  rw [if_neg (by simp [pivotHighAt_cex]), upperOpt_cex 20 (by omega)]
  rw [barAt_cex (by omega)]
  norm_num [cexBar]

/-- Claim C1 counterexample: on the 30-bar input `cexBars` the bar at
index 20 closes above the (flat) upper bound, so `upos[20] = 1`; at
index 21 the breakout condition is false again — index 21 is not a pivot
high and its close is not above `upper[20]` — so the claimed recurrence
demands `upos[21] = upos[20]`, yet the code produces `upos[21] = 0`:
the counters are per-bar flags, not cumulative, and the series decreases
from index 20 to index 21. -/
theorem upos_counter_not_cumulative :
    cexBars.length = 30 ∧
    ((calculatePivotData (fun q => q) cexBars).getD 20 dummyPivot).upos = 1 ∧
    ((calculatePivotData (fun q => q) cexBars).getD 21 dummyPivot).upos = 0 ∧
    pivotHighAt cexBars 21 = false ∧
    ¬ ((upperOpt cexBars 20).getD 0 < (barAt cexBars 21).close) ∧
    ¬ ((calculatePivotData (fun q => q) cexBars).getD 20 dummyPivot).upos ≤
        ((calculatePivotData (fun q => q) cexBars).getD 21 dummyPivot).upos := by
  have h30 : 30 ≤ cexBars.length := by rw [cexBars_length]
  have h20 : ((calculatePivotData (fun q => q) cexBars).getD 20 dummyPivot).upos = 1 := by
    rw [calculatePivotData_getD (fun q => q) cexBars h30 (by rw [cexBars_length]; omega)]
    exact uposAt_cex20
  have h21 : ((calculatePivotData (fun q => q) cexBars).getD 21 dummyPivot).upos = 0 := by
    rw [calculatePivotData_getD (fun q => q) cexBars h30 (by rw [cexBars_length]; omega)]
    exact uposAt_cex21
  refine ⟨cexBars_length, h20, h21, pivotHighAt_cex 21, ?_, ?_⟩
  · rw [upperOpt_cex 20 (by omega), barAt_cex (by omega)]
    norm_num [cexBar]
  · rw [h20, h21]
    omega

/-- Claim C1 amended: `upos` and `dnos` are `{0,1}`-valued per-bar
breakout flags, not cumulative counters: `upos[0] = 0` and for `i > 0`
`upos[i] = 1` exactly when `i` is not a pivot high and `close[i]`
exceeds `upper[i-1]` (else `0`); `dnos` symmetric with `lower[i-1]`.
The series is not monotone and carries no memory of earlier breakouts. -/
theorem upos_dnos_flag (sq : ℚ → ℚ) (bars : List OHLCData)
    (h : 30 ≤ bars.length) :
    ((calculatePivotData sq bars).getD 0 dummyPivot).upos = 0 ∧
    ((calculatePivotData sq bars).getD 0 dummyPivot).dnos = 0 ∧
    ∀ i, 0 < i → i < bars.length →
      ∃ u v,
        ((calculatePivotData sq bars).getD (i - 1) dummyPivot).upper = some u ∧
        ((calculatePivotData sq bars).getD (i - 1) dummyPivot).lower = some v ∧
        ((calculatePivotData sq bars).getD i dummyPivot).upos =
          (if pivotHighAt bars i = false ∧ u < (barAt bars i).close then 1 else 0) ∧
        ((calculatePivotData sq bars).getD i dummyPivot).dnos =
          (if pivotLowAt bars i = false ∧ (barAt bars i).close < v then 1 else 0) := by
  have h0 : 0 < bars.length := by omega
  refine ⟨?_, ?_, ?_⟩
  · rw [calculatePivotData_getD sq bars h h0]
    rfl
  · rw [calculatePivotData_getD sq bars h h0]
    rfl
  · intro i hi0 hilen
    obtain ⟨j, rfl⟩ : ∃ j, i = j + 1 := ⟨i - 1, by omega⟩
    obtain ⟨u, hu⟩ := upperOpt_isSome bars j
    obtain ⟨v, hv⟩ := lowerOpt_isSome bars j
    rw [calculatePivotData_getD sq bars h (by omega : j + 1 - 1 < bars.length),
      calculatePivotData_getD sq bars h hilen]
    have hj : j + 1 - 1 = j := by omega
    rw [hj]
    refine ⟨u, v, hu, hv, ?_, ?_⟩
    · show uposAt bars (j + 1) = _
      simp only [uposAt]
      by_cases hp : pivotHighAt bars (j + 1)
      · simp [hp]
      · simp only [hu, hp]
        by_cases hc : u < (barAt bars (j + 1)).close
        · simp [hp, hc]
        · simp [hp, hc]
    · show dnosAt bars (j + 1) = _
      simp only [dnosAt]
      by_cases hp : pivotLowAt bars (j + 1)
      · simp [hp]
      · simp only [hv, hp]
        by_cases hc : (barAt bars (j + 1)).close < v
        · simp [hp, hc]
        · simp [hp, hc]

/-! ### Signal rules (Claim C3) -/

/-- Claim C3: `signal[0] = Hold`; a surviving `Buy` implies the `upos`
edge `upos[i] > upos[i-1]` and an absent-or-`≤ 70` RSI, a surviving
`Sell` implies the `dnos` edge and an absent-or-`≥ 30` RSI; the RSI veto
only replaces a raw `Buy`/`Sell` by `Hold` and never creates a non-Hold
signal. -/
theorem signal_rules (sq : ℚ → ℚ) (bars : List OHLCData)
    (h : 30 ≤ bars.length) :
    ((calculatePivotData sq bars).getD 0 dummyPivot).signal = Signal.Hold ∧
    ∀ i, 0 < i → i < bars.length →
      (((calculatePivotData sq bars).getD i dummyPivot).signal = rawSignalAt bars i ∨
        ((calculatePivotData sq bars).getD i dummyPivot).signal = Signal.Hold) ∧
      (((calculatePivotData sq bars).getD i dummyPivot).signal ≠ rawSignalAt bars i →
        rawSignalAt bars i ≠ Signal.Hold ∧
        ((calculatePivotData sq bars).getD i dummyPivot).signal = Signal.Hold) ∧
      (((calculatePivotData sq bars).getD i dummyPivot).signal = Signal.Buy →
        ((calculatePivotData sq bars).getD (i - 1) dummyPivot).upos <
          ((calculatePivotData sq bars).getD i dummyPivot).upos ∧
        (((calculatePivotData sq bars).getD i dummyPivot).rsi = none ∨
          ∃ r, ((calculatePivotData sq bars).getD i dummyPivot).rsi = some r ∧ r ≤ 70)) ∧
      (((calculatePivotData sq bars).getD i dummyPivot).signal = Signal.Sell →
        ((calculatePivotData sq bars).getD (i - 1) dummyPivot).dnos <
          ((calculatePivotData sq bars).getD i dummyPivot).dnos ∧
        (((calculatePivotData sq bars).getD i dummyPivot).rsi = none ∨
          ∃ r, ((calculatePivotData sq bars).getD i dummyPivot).rsi = some r ∧ 30 ≤ r)) := by
  have h0 : 0 < bars.length := by omega
  refine ⟨?_, ?_⟩
  · rw [calculatePivotData_getD sq bars h h0]
    rfl
  · intro i hi0 hilen
    obtain ⟨j, rfl⟩ : ∃ j, i = j + 1 := ⟨i - 1, by omega⟩
    rw [calculatePivotData_getD sq bars h (by omega : j + 1 - 1 < bars.length),
      calculatePivotData_getD sq bars h hilen]
    have hj : j + 1 - 1 = j := by omega
    rw [hj]
    simp only [enrich]
    have hbuy : rawSignalAt bars (j + 1) = Signal.Buy →
        uposAt bars j < uposAt bars (j + 1) := by
      intro hb
      simp only [rawSignalAt] at hb
      by_cases hup : uposAt bars (j + 1) > uposAt bars j
      · exact hup
      · rw [if_neg hup] at hb
        split at hb <;> simp at hb
    have hsell : rawSignalAt bars (j + 1) = Signal.Sell →
        dnosAt bars j < dnosAt bars (j + 1) := by
      intro hs
      simp only [rawSignalAt] at hs
      by_cases hup : uposAt bars (j + 1) > uposAt bars j
      · rw [if_pos hup] at hs
        simp at hs
      · rw [if_neg hup] at hs
        by_cases hdn : dnosAt bars (j + 1) > dnosAt bars j
        · exact hdn
        · rw [if_neg hdn] at hs
          simp at hs
    rcases hraw : rawSignalAt bars (j + 1) with _ | _ | _ <;>
      rcases hrsi : rsiAt bars (j + 1) with _ | r
    · have hsig : signalAt bars (j + 1) = Signal.Buy := by
        simp [signalAt, hraw, hrsi]
      rw [hsig]
      exact ⟨Or.inl rfl, fun hne => absurd rfl hne,
        fun _ => ⟨hbuy hraw, Or.inl rfl⟩, fun hc => by simp at hc⟩
    · by_cases hr : r > 70
      · have hsig : signalAt bars (j + 1) = Signal.Hold := by
          simp [signalAt, hraw, hrsi, hr]
        rw [hsig]
        exact ⟨Or.inr rfl, fun _ => ⟨by simp, rfl⟩,
          fun hc => by simp at hc, fun hc => by simp at hc⟩
      · have hsig : signalAt bars (j + 1) = Signal.Buy := by
          simp [signalAt, hraw, hrsi, hr]
        rw [hsig]
        exact ⟨Or.inl rfl, fun hne => absurd rfl hne,
          fun _ => ⟨hbuy hraw, Or.inr ⟨r, rfl, le_of_not_lt hr⟩⟩,
          fun hc => by simp at hc⟩
    · have hsig : signalAt bars (j + 1) = Signal.Sell := by
        simp [signalAt, hraw, hrsi]
      rw [hsig]
      exact ⟨Or.inl rfl, fun hne => absurd rfl hne, fun hc => by simp at hc,
        fun _ => ⟨hsell hraw, Or.inl rfl⟩⟩
    · by_cases hr : r < 30
      · have hsig : signalAt bars (j + 1) = Signal.Hold := by
          simp [signalAt, hraw, hrsi, hr]
        rw [hsig]
        exact ⟨Or.inr rfl, fun _ => ⟨by simp, rfl⟩,
          fun hc => by simp at hc, fun hc => by simp at hc⟩
      · have hsig : signalAt bars (j + 1) = Signal.Sell := by
          simp [signalAt, hraw, hrsi, hr]
        rw [hsig]
        exact ⟨Or.inl rfl, fun hne => absurd rfl hne, fun hc => by simp at hc,
          fun _ => ⟨hsell hraw, Or.inr ⟨r, rfl, le_of_not_lt hr⟩⟩⟩
    · have hsig : signalAt bars (j + 1) = Signal.Hold := by
        simp [signalAt, hraw, hrsi]
      rw [hsig]
      exact ⟨Or.inl rfl, fun hne => absurd rfl hne,
        fun hc => by simp at hc, fun hc => by simp at hc⟩
    · have hsig : signalAt bars (j + 1) = Signal.Hold := by
        simp [signalAt, hraw, hrsi]
      rw [hsig]
      exact ⟨Or.inl rfl, fun hne => absurd rfl hne,
        fun hc => by simp at hc, fun hc => by simp at hc⟩

/-! ### Witnesses for the hypothesis-bearing claim theorems -/

/-- Claim C5 witness at `witBars3` with window 1, index 1. -/
theorem pivot_points_characterization_witness :
    ((1 : ℕ) ≤ 1 ∧ 1 < witBars3.length ∧ 1 ≤ 1 ∧ 1 < witBars3.length - 1) ∧
    (((calculatePivotPoints witBars3 1).1.getD 1 false = true ↔
        ∀ j, (1 - 1 ≤ j ∧ j < 1) ∨ (1 + 1 ≤ j ∧ j ≤ 1 + 1) →
          (barAt witBars3 j).high < (barAt witBars3 1).high) ∧
      ((calculatePivotPoints witBars3 1).2.getD 1 false = true ↔
        ∀ j, (1 - 1 ≤ j ∧ j < 1) ∨ (1 + 1 ≤ j ∧ j ≤ 1 + 1) →
          (barAt witBars3 1).low < (barAt witBars3 j).low)) :=
  ⟨⟨by decide, by decide, by decide, by decide⟩,
    (pivot_points_characterization witBars3 1 (by decide) 1 (by decide)).2
      (by decide) (by decide)⟩

/-- Claim C6 witness at `closes = [1, 2]`, period 1, index 0. -/
theorem rsi_in_bounds_witness :
    ((1 : ℕ) ≤ 1 ∧ 0 < 1) ∧ (calculateRSI [(1 : ℚ), 2] 1).getD 0 none = none :=
  ⟨⟨by decide, by decide⟩, (rsi_in_bounds [(1 : ℚ), 2] 1 (by decide)).2.1 0 (by decide)⟩

/-- Claim C7 witness at two-bar data with period 1. -/
theorem atr_spec_witness :
    ((1 : ℕ) ≤ 1 ∧ ([(1 : ℚ), 2] : List ℚ).length = ([(5 : ℚ), 6] : List ℚ).length ∧
      ([(3 : ℚ), 4] : List ℚ).length = ([(5 : ℚ), 6] : List ℚ).length) ∧
    (calculateATR [(5 : ℚ), 6] [(1 : ℚ), 2] [(3 : ℚ), 4] 1).length =
      ([(5 : ℚ), 6] : List ℚ).length :=
  ⟨⟨by decide, by decide, by decide⟩,
    (atr_spec [(5 : ℚ), 6] [(1 : ℚ), 2] [(3 : ℚ), 4] 1 (by decide) (by decide) (by decide)).1⟩

/-- Claim C2 witness at `cexBars`, index 1. -/
theorem trendline_recurrence_witness :
    (30 ≤ cexBars.length ∧ (0 : ℕ) < 1 ∧ 1 < cexBars.length) ∧
    (∃ u v,
      ((calculatePivotData (fun q => q) cexBars).getD 0 dummyPivot).upper = some u ∧
      ((calculatePivotData (fun q => q) cexBars).getD 0 dummyPivot).lower = some v ∧
      ((calculatePivotData (fun q => q) cexBars).getD 1 dummyPivot).upper =
        some (if pivotHighAt cexBars 1 then (barAt cexBars 1).high
              else u - slopePh cexBars 1) ∧
      ((calculatePivotData (fun q => q) cexBars).getD 1 dummyPivot).lower =
        some (if pivotLowAt cexBars 1 then (barAt cexBars 1).low
              else v + slopePl cexBars 1)) :=
  ⟨⟨by decide, by decide, by decide⟩,
    (trendline_recurrence (fun q => q) cexBars (by decide)).2.2.1 1 (by decide) (by decide)⟩

/-- Claim C1 (amended) witness at `cexBars`, index 1. -/
theorem upos_dnos_flag_witness :
    (30 ≤ cexBars.length ∧ (0 : ℕ) < 1 ∧ 1 < cexBars.length) ∧
    ((calculatePivotData (fun q => q) cexBars).getD 0 dummyPivot).upos = 0 ∧
    (∃ u v,
      ((calculatePivotData (fun q => q) cexBars).getD 0 dummyPivot).upper = some u ∧
      ((calculatePivotData (fun q => q) cexBars).getD 0 dummyPivot).lower = some v ∧
      ((calculatePivotData (fun q => q) cexBars).getD 1 dummyPivot).upos =
        (if pivotHighAt cexBars 1 = false ∧ u < (barAt cexBars 1).close then 1 else 0) ∧
      ((calculatePivotData (fun q => q) cexBars).getD 1 dummyPivot).dnos =
        (if pivotLowAt cexBars 1 = false ∧ (barAt cexBars 1).close < v then 1 else 0)) :=
  ⟨⟨by decide, by decide, by decide⟩,
    (upos_dnos_flag (fun q => q) cexBars (by decide)).1,
    (upos_dnos_flag (fun q => q) cexBars (by decide)).2.2 1 (by decide) (by decide)⟩

/-- Claim C3 witness at `cexBars`, index 1. -/
theorem signal_rules_witness :
    (30 ≤ cexBars.length ∧ (0 : ℕ) < 1 ∧ 1 < cexBars.length) ∧
    ((calculatePivotData (fun q => q) cexBars).getD 0 dummyPivot).signal = Signal.Hold ∧
    (((calculatePivotData (fun q => q) cexBars).getD 1 dummyPivot).signal =
        rawSignalAt cexBars 1 ∨
      ((calculatePivotData (fun q => q) cexBars).getD 1 dummyPivot).signal =
        Signal.Hold) :=
  ⟨⟨by decide, by decide, by decide⟩,
    (signal_rules (fun q => q) cexBars (by decide)).1,
    ((signal_rules (fun q => q) cexBars (by decide)).2 1 (by decide) (by decide)).1⟩

/-! ### Latest-signal summary (Claim C9) -/

theorem getLatestSignal_eq_of_ne (l : List PivotData) (hne : l ≠ []) :
    getLatestSignal l =
      match (l.mergeSort (fun a b => decide (b.datetime ≤ a.datetime))).find?
          (fun d => decide (d.signal ≠ Signal.Hold)) with
      | some d =>
          ⟨((l.mergeSort (fun a b => decide (b.datetime ≤ a.datetime))).headD
              dummyPivot).signal, d.signal, some d.datetime, some d.close⟩
      | none =>
          ⟨((l.mergeSort (fun a b => decide (b.datetime ≤ a.datetime))).headD
              dummyPivot).signal, Signal.Hold, none, none⟩ := by
  unfold getLatestSignal
  rw [if_neg (by simp [hne])]

theorem mergeSort_pairwise_desc (l : List PivotData) :
    (l.mergeSort (fun a b => decide (b.datetime ≤ a.datetime))).Pairwise
      (fun a b => b.datetime ≤ a.datetime) := by
  have h := List.sorted_mergeSort
    (fun a b c (hab : decide (b.datetime ≤ a.datetime) = true)
        (hbc : decide (c.datetime ≤ b.datetime) = true) => by
      simp only [decide_eq_true_eq] at hab hbc ⊢
      exact le_trans hbc hab)
    (fun a b => by
      simp only [Bool.or_eq_true, decide_eq_true_eq]
      exact le_total b.datetime a.datetime)
    l
  exact h.imp (fun hab => by simpa using hab)

/-- Claim C9: `getLatestSignal` returns the signal of a bar carrying the
maximal timestamp as the current signal; its `lastSignal`,
`lastSignalTime` and `lastSignalPrice` come from the first bar with a
non-`Hold` signal in a descending-by-timestamp reordering of the input;
and when no such bar exists (in particular on the empty input) they are
`Hold`, `none`, `none`. -/
theorem latest_signal_spec (l : List PivotData) :
    (l = [] → getLatestSignal l = ⟨Signal.Hold, Signal.Hold, none, none⟩) ∧
    (l ≠ [] → ∃ b, b ∈ l ∧ (∀ b', b' ∈ l → b'.datetime ≤ b.datetime) ∧
      (getLatestSignal l).signal = b.signal) ∧
    (∃ s : List PivotData, s.Perm l ∧
      s.Pairwise (fun a b => b.datetime ≤ a.datetime) ∧
      ((∃ d, s.find? (fun x => decide (x.signal ≠ Signal.Hold)) = some d ∧
          (getLatestSignal l).lastSignal = d.signal ∧
          (getLatestSignal l).lastSignalTime = some d.datetime ∧
          (getLatestSignal l).lastSignalPrice = some d.close) ∨
        (s.find? (fun x => decide (x.signal ≠ Signal.Hold)) = none ∧
          (getLatestSignal l).lastSignal = Signal.Hold ∧
          (getLatestSignal l).lastSignalTime = none ∧
          (getLatestSignal l).lastSignalPrice = none))) ∧
    ((∀ b, b ∈ l → b.signal = Signal.Hold) →
      (getLatestSignal l).lastSignal = Signal.Hold ∧
      (getLatestSignal l).lastSignalTime = none ∧
      (getLatestSignal l).lastSignalPrice = none) := by
  refine ⟨?_, ?_, ?_, ?_⟩
  · rintro rfl
    rfl
  · intro hne
    have hperm := List.mergeSort_perm l (fun a b => decide (b.datetime ≤ a.datetime))
    have hsorted := mergeSort_pairwise_desc l
    cases hl : l.mergeSort (fun a b => decide (b.datetime ≤ a.datetime)) with
    | nil =>
        exfalso
        rw [hl] at hperm
        exact hne hperm.nil_eq.symm
    | cons a t =>
        rw [hl] at hperm hsorted
        have hmax : ∀ b', b' ∈ l → b'.datetime ≤ a.datetime := by
          intro b' hb'
          have : b' ∈ a :: t := hperm.symm.subset hb'
          rcases this with _ | hmem
          · exact le_refl _
          · exact (List.pairwise_cons.mp hsorted).1 b' (by assumption)
        refine ⟨a, hperm.subset (by simp), hmax, ?_⟩
        rw [getLatestSignal_eq_of_ne l hne, hl]
        cases hfind : (a :: t).find? (fun d => decide (d.signal ≠ Signal.Hold)) <;> rfl
  · by_cases hne : l = []
    · subst hne
      exact ⟨[], List.Perm.refl [], List.Pairwise.nil, Or.inr ⟨rfl, rfl, rfl, rfl⟩⟩
    · refine ⟨l.mergeSort (fun a b => decide (b.datetime ≤ a.datetime)),
        List.mergeSort_perm l _, mergeSort_pairwise_desc l, ?_⟩
      cases hfind : (l.mergeSort (fun a b => decide (b.datetime ≤ a.datetime))).find?
          (fun d => decide (d.signal ≠ Signal.Hold)) with
      | some d =>
          refine Or.inl ⟨d, rfl, ?_⟩
          rw [getLatestSignal_eq_of_ne l hne, hfind]
          exact ⟨rfl, rfl, rfl⟩
      | none =>
          refine Or.inr ⟨rfl, ?_⟩
          rw [getLatestSignal_eq_of_ne l hne, hfind]
          exact ⟨rfl, rfl, rfl⟩
  · intro hall
    by_cases hne : l = []
    · subst hne
      exact ⟨rfl, rfl, rfl⟩
    · have hfind : (l.mergeSort (fun a b => decide (b.datetime ≤ a.datetime))).find?
          (fun d => decide (d.signal ≠ Signal.Hold)) = none := by
        rw [List.find?_eq_none]
        intro x hx
        have hxl : x ∈ l := List.mem_mergeSort.mp hx
        simp [hall x hxl]
      rw [getLatestSignal_eq_of_ne l hne, hfind]
      exact ⟨rfl, rfl, rfl⟩

/-- Claim C9 witness at a concrete two-bar list. -/
theorem latest_signal_spec_witness :
    ((⟨⟨3, 0, 0, 0, 7, 0⟩, none, none, none, none, none, false, false,
        Signal.Buy, 1, 0⟩ : PivotData) ::
      [(⟨⟨9, 0, 0, 0, 8, 0⟩, none, none, none, none, none, false, false,
        Signal.Hold, 0, 0⟩ : PivotData)] ≠ []) ∧
    (∃ b, b ∈ ((⟨⟨3, 0, 0, 0, 7, 0⟩, none, none, none, none, none, false, false,
        Signal.Buy, 1, 0⟩ : PivotData) ::
      [(⟨⟨9, 0, 0, 0, 8, 0⟩, none, none, none, none, none, false, false,
        Signal.Hold, 0, 0⟩ : PivotData)]) ∧
      (∀ b', b' ∈ ((⟨⟨3, 0, 0, 0, 7, 0⟩, none, none, none, none, none, false, false,
          Signal.Buy, 1, 0⟩ : PivotData) ::
        [(⟨⟨9, 0, 0, 0, 8, 0⟩, none, none, none, none, none, false, false,
          Signal.Hold, 0, 0⟩ : PivotData)]) → b'.datetime ≤ b.datetime) ∧
      (getLatestSignal ((⟨⟨3, 0, 0, 0, 7, 0⟩, none, none, none, none, none, false, false,
          Signal.Buy, 1, 0⟩ : PivotData) ::
        [(⟨⟨9, 0, 0, 0, 8, 0⟩, none, none, none, none, none, false, false,
          Signal.Hold, 0, 0⟩ : PivotData)])).signal = b.signal) :=
  ⟨by simp, (latest_signal_spec _).2.1 (by simp)⟩

/-! ### Equivalence of the condensed `[trpc].ts` copy (Claim C10) -/

theorem rsiSeedAcc_eq (closes : List ℚ) :
    ∀ n, rsiSeedAcc closes n =
      (((List.range n).map (fun k => gainAt closes (k + 1))).sum,
       ((List.range n).map (fun k => lossAt closes (k + 1))).sum) := by
  intro n
  induction n with
  | zero => simp [rsiSeedAcc]
  | succ k ih =>
      rw [List.range_succ, List.map_append, List.map_append,
        List.sum_append, List.sum_append]
      simp only [List.map_cons, List.map_nil, List.sum_cons, List.sum_nil]
      show rsiSeedAcc closes (k + 1) = _
      simp only [rsiSeedAcc, ih]
      by_cases hpos : changeAt closes (k + 1) > 0
      · rw [if_pos hpos]
        have hg : gainAt closes (k + 1) = changeAt closes (k + 1) := by
          unfold gainAt
          rw [if_pos hpos]
        have hlz : lossAt closes (k + 1) = 0 := by
          unfold lossAt
          rw [if_neg (by linarith)]
        rw [hg, hlz]
        simp
      · rw [if_neg hpos]
        have hg : gainAt closes (k + 1) = 0 := by
          unfold gainAt
          rw [if_neg hpos]
        have hl : |changeAt closes (k + 1)| = lossAt closes (k + 1) := by
          unfold lossAt
          by_cases hneg : changeAt closes (k + 1) < 0
          · rw [if_pos hneg]
          · rw [if_neg hneg]
            have h0 : changeAt closes (k + 1) = 0 := le_antisymm (not_lt.mp hpos) (not_lt.mp hneg)
            rw [h0, abs_zero]
        rw [hg, hl]
        simp

theorem rsiAvgs2_eq (closes : List ℚ) (period : ℕ) :
    ∀ k, rsiAvgs2 closes period k = rsiAvgs closes period k := by
  intro k
  induction k with
  | zero =>
      simp only [rsiAvgs2, rsiAvgs, rsiSeedAcc_eq]
  | succ k ih =>
      simp only [rsiAvgs2, rsiAvgs, ih, gainAt, lossAt]

theorem calculateRSI2_eq (closes : List ℚ) (period : ℕ) :
    calculateRSI2 closes period = calculateRSI closes period := by
  unfold calculateRSI2 calculateRSI
  simp only [rsiValue2, rsiValue, rsiAvgs2_eq]

theorem atrValue2_eq (highs lows closes : List ℚ) (period : ℕ) :
    ∀ k, atrValue2 highs lows closes period k = atrValue highs lows closes period k := by
  intro k
  induction k with
  | zero => rfl
  | succ k ih => simp only [atrValue2, atrValue, ih]

theorem calculateATR2_eq (highs lows closes : List ℚ) (period : ℕ) :
    calculateATR2 highs lows closes period = calculateATR highs lows closes period := by
  unfold calculateATR2 calculateATR
  simp only [atrValue2_eq]

theorem isPivotPair2_fst (data : List OHLCData) (length i : ℕ) :
    (isPivotPair2 data length i).1 = isPivotHighAt data length i := by
  unfold isPivotPair2 isPivotHighAt
  simp only [List.all_append]

theorem isPivotPair2_snd (data : List OHLCData) (length i : ℕ) :
    (isPivotPair2 data length i).2 = isPivotLowAt data length i := by
  unfold isPivotPair2 isPivotLowAt
  simp only [List.all_append]

theorem calculatePivotPoints2_eq (data : List OHLCData) (length : ℕ) :
    calculatePivotPoints2 data length = calculatePivotPoints data length := by
  unfold calculatePivotPoints2 calculatePivotPoints
  simp only [isPivotPair2_fst, isPivotPair2_snd]

theorem pctList2_getD (closes : List ℚ) (j : ℕ) (hj : j < closes.length) :
    (pctList2 closes).getD j 0 = pctChange closes j := by
  cases j with
  | zero =>
      rfl
  | succ j =>
      unfold pctList2 pctChange
      rw [List.getD_eq_getElem?_getD, List.getElem?_cons_succ, List.getElem?_mapIdx,
        List.getElem?_drop, if_neg (by omega)]
      have hj1 : 1 + j < closes.length := by omega
      rw [List.getElem?_eq_getElem hj1]
      have hidx : closes[1 + j] = closes.getD (j + 1) 0 := by
        rw [List.getD_eq_getElem?_getD, List.getElem?_eq_getElem (by omega : j + 1 < closes.length)]
        simp only [Option.getD_some]
        congr 1
        omega
      simp only [Option.map_some, Option.getD_some, hidx]
      congr 2

theorem volAt2_eq (sq : ℚ → ℚ) (closes : List ℚ) (window i : ℕ)
    (hi : i < closes.length) :
    volAt2 sq closes window i = volAt sq closes window i := by
  unfold volAt2 volAt
  by_cases hw : i + 1 < window
  · rw [if_pos hw, if_pos hw]
  · rw [if_neg hw, if_neg hw]
    have hslice : (List.range window).map
        (fun k => (pctList2 closes).getD (i + 1 - window + k) 0) =
        volSlice closes window i := by
      unfold volSlice
      refine List.map_congr_left ?_
      intro k hk
      exact pctList2_getD closes (i + 1 - window + k)
        (by rw [List.mem_range] at hk; omega)
    rw [hslice]

theorem emas2_eq (closes : List ℚ) (fastM slowM : ℚ) :
    ∀ i, emas2 closes fastM slowM i = (emaFrom closes fastM i, emaFrom closes slowM i) := by
  intro i
  induction i with
  | zero => rfl
  | succ i ih => simp only [emas2, emaFrom, ih]

theorem rawAma2_eq (sq : ℚ → ℚ) (closes : List ℚ) (window : ℕ)
    (fast slow : ℚ) (i : ℕ) (hi : i < closes.length) :
    rawAma2 sq closes window fast slow i = rawAma sq closes window fast slow i := by
  unfold rawAma2 rawAma
  rw [emas2_eq, volAt2_eq sq closes window i hi]

theorem amaValue2_eq (sq : ℚ → ℚ) (closes : List ℚ) (window : ℕ)
    (fast slow : ℚ) :
    ∀ i, i < closes.length →
      amaValue2 sq closes window fast slow i = amaValue sq closes window fast slow i := by
  intro i
  induction i with
  | zero =>
      intro h0
      simp only [amaValue2, amaValue, rawAma2_eq sq closes window fast slow 0 h0]
  | succ i ih =>
      intro hi
      simp only [amaValue2, amaValue, ih (by omega),
        rawAma2_eq sq closes window fast slow (i + 1) hi]

theorem calculateAMA2_eq (sq : ℚ → ℚ) (closes : List ℚ) (window : ℕ)
    (fast slow : ℚ) :
    calculateAMA2 sq closes window fast slow = calculateAMA sq closes window fast slow := by
  unfold calculateAMA2 calculateAMA
  split
  · rfl
  · refine List.map_congr_left ?_
    intro i hi
    rw [List.mem_range] at hi
    rw [amaValue2_eq sq closes window fast slow i hi]

theorem rsi2At_eq (bars : List OHLCData) (i : ℕ) : rsi2At bars i = rsiAt bars i := by
  unfold rsi2At rsiAt
  rw [calculateRSI2_eq]

theorem atr2At_eq (bars : List OHLCData) (i : ℕ) : atr2At bars i = atrAt bars i := by
  unfold atr2At atrAt
  rw [calculateATR2_eq]

theorem ama2At_eq (sq : ℚ → ℚ) (bars : List OHLCData) (i : ℕ) :
    ama2At sq bars i = amaAt sq bars i := by
  unfold ama2At amaAt
  rw [calculateAMA2_eq]

theorem pivotHigh2At_eq (bars : List OHLCData) (i : ℕ) :
    pivotHigh2At bars i = pivotHighAt bars i := by
  unfold pivotHigh2At pivotHighAt
  rw [calculatePivotPoints2_eq]

theorem pivotLow2At_eq (bars : List OHLCData) (i : ℕ) :
    pivotLow2At bars i = pivotLowAt bars i := by
  unfold pivotLow2At pivotLowAt
  rw [calculatePivotPoints2_eq]

theorem slope2At_eq (bars : List OHLCData) (i : ℕ) :
    slope2At bars i = slopeAt bars i := by
  unfold slope2At slopeAt
  rw [atr2At_eq]
  cases h : atrAt bars i <;> simp [h]

theorem trend2_components (bars : List OHLCData) :
    ∀ i, trend2 bars i =
      ⟨slopePh bars i, slopePl bars i, upperOpt bars i, lowerOpt bars i,
        uposAt bars i, dnosAt bars i⟩ := by
  intro i
  induction i with
  | zero =>
      simp only [trend2, slope2At_eq]
      rfl
  | succ i ih =>
      simp only [trend2, ih, pivotHigh2At_eq, pivotLow2At_eq, slope2At_eq,
        TrendState.mk.injEq]
      refine ⟨?_, ?_, ?_, ?_, ?_, ?_⟩
      · by_cases hp : pivotHighAt bars (i + 1) <;> simp [slopePh, hp]
      · by_cases hp : pivotLowAt bars (i + 1) <;> simp [slopePl, hp]
      · by_cases hp : pivotHighAt bars (i + 1) <;> simp [upperOpt, slopePh, hp]
      · by_cases hp : pivotLowAt bars (i + 1) <;> simp [lowerOpt, slopePl, hp]
      · by_cases hp : pivotHighAt bars (i + 1)
        · simp [uposAt, hp]
        · cases ho : upperOpt bars i <;> simp [uposAt, hp, ho]
      · by_cases hp : pivotLowAt bars (i + 1)
        · simp [dnosAt, hp]
        · cases ho : lowerOpt bars i <;> simp [dnosAt, hp, ho]

theorem signal2At_eq (bars : List OHLCData) : ∀ i, signal2At bars i = signalAt bars i := by
  intro i
  cases i with
  | zero => rfl
  | succ i =>
      have hupos : ∀ j, (trend2 bars j).upos = uposAt bars j := fun j => by
        rw [trend2_components]
      have hdnos : ∀ j, (trend2 bars j).dnos = dnosAt bars j := fun j => by
        rw [trend2_components]
      simp only [signal2At, signalAt, hupos, hdnos, rsi2At_eq]
      by_cases hb : uposAt bars (i + 1) > uposAt bars i
      · cases hr : rsiAt bars (i + 1) with
        | none => simp [rawSignalAt, hb, hr, rsiGt70, rsiLt30]
        | some r =>
            by_cases h70 : r > 70
            · simp [rawSignalAt, hb, hr, rsiGt70, rsiLt30, h70]
            · simp [rawSignalAt, hb, hr, rsiGt70, rsiLt30, h70]
      · by_cases hd : dnosAt bars (i + 1) > dnosAt bars i
        · cases hr : rsiAt bars (i + 1) with
          | none => simp [rawSignalAt, hb, hd, hr, rsiGt70, rsiLt30]
          | some r =>
              by_cases h30 : r < 30
              · simp [rawSignalAt, hb, hd, hr, rsiGt70, rsiLt30, h30]
              · simp [rawSignalAt, hb, hd, hr, rsiGt70, rsiLt30, h30]
        · simp [rawSignalAt, hb, hd]

theorem enrich2_eq (sq : ℚ → ℚ) (bars : List OHLCData) (i : ℕ) :
    enrich2 sq bars i = enrich sq bars i := by
  unfold enrich2 enrich
  rw [rsi2At_eq, atr2At_eq, ama2At_eq, pivotHigh2At_eq, pivotLow2At_eq,
    signal2At_eq, trend2_components]

theorem calculatePivotData2_eq (sq : ℚ → ℚ) (bars : List OHLCData) :
    calculatePivotData2 sq bars = calculatePivotData sq bars := by
  unfold calculatePivotData2 calculatePivotData
  split
  · rfl
  · exact List.map_congr_left (fun i _ => enrich2_eq sq bars i)

theorem getLatestSignal2_eq (l : List PivotData) :
    getLatestSignal2 l = getLatestSignal l := by
  unfold getLatestSignal2 getLatestSignal
  rfl

/-! ### Equivalence of the bundled `part_003` copy (Claim C10) -/

theorem rsiAvgs3_eq (closes : List ℚ) (period : ℕ) :
    ∀ k, rsiAvgs3 closes period k = rsiAvgs closes period k := by
  intro k
  induction k with
  | zero => rfl
  | succ k ih => simp only [rsiAvgs3, rsiAvgs, ih, gainAt, lossAt]

theorem calculateRSI3_eq (closes : List ℚ) (period : ℕ) :
    calculateRSI3 closes period = calculateRSI closes period := by
  unfold calculateRSI3 calculateRSI
  simp only [rsiValue3, rsiValue, rsiAvgs3_eq]

theorem atrValue3_eq (highs lows closes : List ℚ) (period : ℕ) :
    ∀ k, atrValue3 highs lows closes period k = atrValue highs lows closes period k := by
  intro k
  induction k with
  | zero => rfl
  | succ k ih => simp only [atrValue3, atrValue, ih, trueRange3, trueRange]

theorem calculateATR3_eq (highs lows closes : List ℚ) (period : ℕ) :
    calculateATR3 highs lows closes period = calculateATR highs lows closes period := by
  unfold calculateATR3 calculateATR
  simp only [atrValue3_eq]

theorem volAt3_eq (sq : ℚ → ℚ) (closes : List ℚ) (window i : ℕ) :
    volAt3 sq closes window i = volAt sq closes window i := rfl

theorem emas3_eq (closes : List ℚ) (fastM slowM : ℚ) :
    ∀ i, emas3 closes fastM slowM i = (emaFrom closes fastM i, emaFrom closes slowM i) := by
  intro i
  induction i with
  | zero => rfl
  | succ i ih => simp only [emas3, emaFrom, ih]

theorem amaValue3_eq (sq : ℚ → ℚ) (closes : List ℚ) (window : ℕ)
    (fastFactor slowFactor : ℚ) :
    ∀ i, amaValue3 sq closes window fastFactor slowFactor i =
      amaValue sq closes window fastFactor slowFactor i := by
  intro i
  induction i with
  | zero => simp only [amaValue3, amaValue, rawAma, emas3_eq, volAt3_eq]
  | succ i ih => simp only [amaValue3, amaValue, rawAma, emas3_eq, volAt3_eq, ih]

theorem calculateAMA3_eq (sq : ℚ → ℚ) (closes : List ℚ) (window : ℕ)
    (fastFactor slowFactor : ℚ) :
    calculateAMA3 sq closes window fastFactor slowFactor =
      calculateAMA sq closes window fastFactor slowFactor := by
  unfold calculateAMA3 calculateAMA
  simp only [amaValue3_eq]

theorem leftScan3_eq (data : List OHLCData) (i : ℕ) :
    ∀ (l : List ℕ) (hB lB : Bool),
      leftScan3 data i l (hB, lB) =
        (hB && l.all (fun j => decide ((barAt data j).high < (barAt data i).high)),
         lB && l.all (fun j => decide ((barAt data i).low < (barAt data j).low))) := by
  intro l
  induction l with
  | nil =>
      intro hB lB
      simp [leftScan3]
  | cons j js ih =>
      intro hB lB
      simp only [leftScan3, List.all_cons]
      rw [ih]
      simp only [Prod.mk.injEq]
      constructor
      · by_cases hc : (barAt data j).high ≥ (barAt data i).high
        · rw [if_pos hc]
          simp [not_lt.mpr hc]
        · rw [if_neg hc]
          simp [lt_of_not_ge hc, Bool.and_assoc]
      · by_cases hc : (barAt data j).low ≤ (barAt data i).low
        · rw [if_pos hc]
          simp [not_lt.mpr hc]
        · rw [if_neg hc]
          simp [lt_of_not_ge hc, Bool.and_assoc]

theorem rightScan3_eq (data : List OHLCData) (i : ℕ) :
    ∀ (l : List ℕ) (hB lB : Bool),
      rightScan3 data i l (hB, lB) =
        (hB && l.all (fun j => decide ((barAt data j).high < (barAt data i).high)),
         lB && l.all (fun j => decide ((barAt data i).low < (barAt data j).low))) := by
  intro l
  induction l with
  | nil =>
      intro hB lB
      simp [rightScan3]
  | cons j js ih =>
      intro hB lB
      by_cases hor : (hB || lB) = true
      · simp only [rightScan3, if_pos hor, List.all_cons]
        rw [ih]
        simp only [Prod.mk.injEq]
        constructor
        · by_cases hc : (barAt data j).high ≥ (barAt data i).high
          · rw [if_pos hc]
            simp [not_lt.mpr hc]
          · rw [if_neg hc]
            simp [lt_of_not_ge hc, Bool.and_assoc]
        · by_cases hc : (barAt data j).low ≤ (barAt data i).low
          · rw [if_pos hc]
            simp [not_lt.mpr hc]
          · rw [if_neg hc]
            simp [lt_of_not_ge hc, Bool.and_assoc]
      · have hB0 : hB = false := by
          cases hB
          · rfl
          · simp at hor
        have lB0 : lB = false := by
          cases lB
          · rfl
          · simp [hB0] at hor
        subst hB0
        subst lB0
        simp [rightScan3]

theorem isPivotPair3_fst (data : List OHLCData) (length i : ℕ) :
    (isPivotPair3 data length i).1 = isPivotHighAt data length i := by
  unfold isPivotPair3 isPivotHighAt
  rw [leftScan3_eq, rightScan3_eq]
  simp [Bool.and_assoc]

theorem isPivotPair3_snd (data : List OHLCData) (length i : ℕ) :
    (isPivotPair3 data length i).2 = isPivotLowAt data length i := by
  unfold isPivotPair3 isPivotLowAt
  rw [leftScan3_eq, rightScan3_eq]
  simp [Bool.and_assoc]

theorem calculatePivotPoints3_eq (data : List OHLCData) (length : ℕ) :
    calculatePivotPoints3 data length = calculatePivotPoints data length := by
  unfold calculatePivotPoints3 calculatePivotPoints
  simp only [isPivotPair3_fst, isPivotPair3_snd]

theorem rsi3At_eq (bars : List OHLCData) (i : ℕ) : rsi3At bars i = rsiAt bars i := by
  unfold rsi3At rsiAt
  rw [calculateRSI3_eq]

theorem atr3At_eq (bars : List OHLCData) (i : ℕ) : atr3At bars i = atrAt bars i := by
  unfold atr3At atrAt
  rw [calculateATR3_eq]

theorem ama3At_eq (sq : ℚ → ℚ) (bars : List OHLCData) (i : ℕ) :
    ama3At sq bars i = amaAt sq bars i := by
  unfold ama3At amaAt
  rw [calculateAMA3_eq]

theorem pivotHigh3At_eq (bars : List OHLCData) (i : ℕ) :
    pivotHigh3At bars i = pivotHighAt bars i := by
  unfold pivotHigh3At pivotHighAt
  rw [calculatePivotPoints3_eq]

theorem pivotLow3At_eq (bars : List OHLCData) (i : ℕ) :
    pivotLow3At bars i = pivotLowAt bars i := by
  unfold pivotLow3At pivotLowAt
  rw [calculatePivotPoints3_eq]

theorem slope3At_eq (bars : List OHLCData) (i : ℕ) :
    slope3At bars i = slopeAt bars i := by
  unfold slope3At slopeAt
  rw [atr3At_eq]

theorem slopePh3_eq (bars : List OHLCData) : ∀ i, slopePh3 bars i = slopePh bars i := by
  intro i
  induction i with
  | zero => simp only [slopePh3, slopePh, slope3At_eq]
  | succ i ih => simp only [slopePh3, slopePh, slope3At_eq, pivotHigh3At_eq, ih]

theorem slopePl3_eq (bars : List OHLCData) : ∀ i, slopePl3 bars i = slopePl bars i := by
  intro i
  induction i with
  | zero => simp only [slopePl3, slopePl, slope3At_eq]
  | succ i ih => simp only [slopePl3, slopePl, slope3At_eq, pivotLow3At_eq, ih]

theorem upperOpt3_eq (bars : List OHLCData) : ∀ i, upperOpt3 bars i = upperOpt bars i := by
  intro i
  induction i with
  | zero => rfl
  | succ i ih => simp only [upperOpt3, upperOpt, pivotHigh3At_eq, slopePh3_eq, ih]

theorem lowerOpt3_eq (bars : List OHLCData) : ∀ i, lowerOpt3 bars i = lowerOpt bars i := by
  intro i
  induction i with
  | zero => rfl
  | succ i ih => simp only [lowerOpt3, lowerOpt, pivotLow3At_eq, slopePl3_eq, ih]

theorem upos3At_eq (bars : List OHLCData) : ∀ i, upos3At bars i = uposAt bars i := by
  intro i
  cases i with
  | zero => rfl
  | succ i =>
      simp only [upos3At, uposAt, pivotHigh3At_eq, upperOpt3_eq]
      by_cases hp : pivotHighAt bars (i + 1)
      · simp [hp]
      · cases ho : upperOpt bars i <;> simp [hp, ho]

theorem dnos3At_eq (bars : List OHLCData) : ∀ i, dnos3At bars i = dnosAt bars i := by
  intro i
  cases i with
  | zero => rfl
  | succ i =>
      simp only [dnos3At, dnosAt, pivotLow3At_eq, lowerOpt3_eq]
      by_cases hp : pivotLowAt bars (i + 1)
      · simp [hp]
      · cases ho : lowerOpt bars i <;> simp [hp, ho]

theorem rawSignal3At_eq (bars : List OHLCData) :
    ∀ i, rawSignal3At bars i = rawSignalAt bars i := by
  intro i
  cases i with
  | zero => rfl
  | succ i => simp only [rawSignal3At, rawSignalAt, upos3At_eq, dnos3At_eq]

theorem signal3At_eq (bars : List OHLCData) : ∀ i, signal3At bars i = signalAt bars i := by
  intro i
  cases i with
  | zero => rfl
  | succ i => simp only [signal3At, signalAt, rawSignal3At_eq, rsi3At_eq]

theorem enrich3_eq (sq : ℚ → ℚ) (bars : List OHLCData) (i : ℕ) :
    enrich3 sq bars i = enrich sq bars i := by
  unfold enrich3 enrich
  rw [rsi3At_eq, atr3At_eq, ama3At_eq, pivotHigh3At_eq, pivotLow3At_eq,
    signal3At_eq, upperOpt3_eq, lowerOpt3_eq, upos3At_eq, dnos3At_eq]

theorem calculatePivotData3_eq (sq : ℚ → ℚ) (bars : List OHLCData) :
    calculatePivotData3 sq bars = calculatePivotData sq bars := by
  unfold calculatePivotData3 calculatePivotData
  split
  · rfl
  · exact List.map_congr_left (fun i _ => enrich3_eq sq bars i)

theorem getLatestSignal3_eq (l : List PivotData) :
    getLatestSignal3 l = getLatestSignal l := by
  unfold getLatestSignal3 getLatestSignal
  rfl

/-- Claim C10: on every input the three textual copies of the pipeline —
the `pivotCalculator.ts` implementation, the condensed
`src/api/trpc/[trpc].ts` copy (scalar-seeded RSI averages, fused pivot
scans without early exit, fused trendline loop, inline RSI veto), and
the bundled `src/unnamed/part_003` copy (fused pivot scans whose right
scan exits early once both flags are cleared, fused EMA loop, inline AMA
raw expression) — return element-wise equal enriched bars and equal
signal summaries. -/
theorem pipeline_copies_agree (sq : ℚ → ℚ) (bars : List OHLCData)
    (pd : List PivotData) :
    calculatePivotData2 sq bars = calculatePivotData sq bars ∧
    calculatePivotData3 sq bars = calculatePivotData sq bars ∧
    getLatestSignal2 pd = getLatestSignal pd ∧
    getLatestSignal3 pd = getLatestSignal pd :=
  ⟨calculatePivotData2_eq sq bars, calculatePivotData3_eq sq bars,
    getLatestSignal2_eq pd, getLatestSignal3_eq pd⟩

end PivotCalc
